import Mathlib

/-!
# Verification of the Universal Tasker control loop and translator

Shallow embedding of the repository (danjsiegel/cursor_hackathon):
`src/task_translator.py` (rule-based task-to-code translator),
`src/app.py` (MiniMax reply parsing, per-step/goal verification shape,
the Streamlit step pipeline in `main`, and the post-mortem phase).

Python strings are modelled as Lean `String`/`List Char`; Python `None`
vs a value is `Option`; a raised Python exception is `Except.error`;
JSON values produced by `json.loads` are the inductive `JVal`: integer
literals are exact unbounded Python ints, float literals go through the
correctly rounded string-to-double conversion CPython performs
(overflowing to the signed infinity, underflowing to zero), and the
`NaN`/`Infinity`/`-Infinity` constants the `json` module accepts by
default are represented as such.
-/

namespace UniversalTasker

/-! ## Python string primitives -/

/-- Python `str.isspace`-style whitespace, the characters matched by the
whitespace class of `re` and stripped by `str.strip()` (ASCII subset,
which covers every string the program manipulates). -/
def isPySpace (c : Char) : Bool :=
  c = ' ' || c = '\t' || c = '\n' || c = '\r' || c = '\x0b' || c = '\x0c'

/-- Python `str.strip()` on a character list. -/
def stripChars (cs : List Char) : List Char :=
  ((cs.dropWhile isPySpace).reverse.dropWhile isPySpace).reverse

/-- Python `str.strip()`. -/
def pyStrip (s : String) : String :=
  (stripChars s.toList).asString

/-- Substring test on character lists (Python's `needle in haystack`). -/
def subList (p : List Char) : List Char → Bool
  | [] => p.isEmpty
  | c :: cs => p.isPrefixOf (c :: cs) || subList p cs

/-- Python's `needle in haystack` for strings. -/
def strIn (p t : String) : Bool :=
  subList p.toList t.toList

/-- Worker for `replaceChars`, structurally recursive on a fuel bound
so that it evaluates inside the kernel; each step consumes at least one
character, so `t.length` fuel is always enough. -/
def replaceFuel (pat rep : List Char) : Nat → List Char → List Char
  | 0, t => t
  | _ + 1, [] => []
  | fuel + 1, c :: cs =>
    if !pat.isEmpty && pat.isPrefixOf (c :: cs) then
      rep ++ replaceFuel pat rep fuel ((c :: cs).drop pat.length)
    else
      c :: replaceFuel pat rep fuel cs

/-- Python `str.replace`: replace every non-overlapping occurrence of
`pat` (non-empty at every call site, as in the source) left to
right. -/
def replaceChars (pat rep t : List Char) : List Char :=
  replaceFuel pat rep t.length t

/-- Python `str.replace` on strings. -/
def pyReplace (s pat rep : String) : String :=
  (replaceChars pat.toList rep.toList s.toList).asString

/-- ASCII lower-casing of one character. -/
def lowerChar (c : Char) : Char :=
  if 'A' ≤ c && c ≤ 'Z' then Char.ofNat (c.toNat + 32) else c

/-- ASCII upper-casing of one character. -/
def upperChar (c : Char) : Char :=
  if 'a' ≤ c && c ≤ 'z' then Char.ofNat (c.toNat - 32) else c

/-- Python `str.lower()` (ASCII; every string the program lowercases is
ASCII). -/
def pyLower (s : String) : String :=
  (s.toList.map lowerChar).asString

/-- Python `str.upper()` (ASCII). -/
def pyUpper (s : String) : String :=
  (s.toList.map upperChar).asString

/-! ## `src/task_translator.py` — rule-based task-to-code translator -/

/-- One loaded translation rule, the normal form produced by
`load_rules` plus the inline normalisation in `translate_task_to_code`
(`patterns` already coerced from a bare string to a one-element list;
a JSON field that is absent is `none`).  `code` / `code_macos` keep the
raw strings, including possibly empty ones, since the source tests
truthiness (`rule.get("code")`) rather than presence. -/
structure Rule where
  patterns : List String
  code : Option String
  code_macos : Option String
deriving DecidableEq, Repr

/-- Pythonic truthiness of an optional string: `None` and `""` are
falsy. -/
def optTruthy : Option String → Bool
  | none => false
  | some s => s ≠ ""

/-- `_is_macos(user_env)`: `"macos" in (user_env or "").lower() or
"darwin" in (user_env or "").lower()`. -/
def is_macos (user_env : String) : Bool :=
  strIn "macos" (pyLower user_env) || strIn "darwin" (pyLower user_env)

/-- `_modifier_key(user_env)`: `"command"` on macOS, else `"win"`. -/
def modifier_key (user_env : String) : String :=
  if is_macos user_env then "command" else "win"

/-- The instruction a matching rule yields, lines 69-71 of
`task_translator.py`: `rule.get("code_macos" if use_macos_code else
"code") or rule.get("code")`, then (only if that is truthy) the
`{modifier}` substitution and `strip`.  `none` means the Python `break`
that abandons the rule and resumes scanning with the next rule. -/
def ruleFill (use_macos : Bool) (modifier : String) (r : Rule) : Option String :=
  let sel := if use_macos then
      (if optTruthy r.code_macos then r.code_macos else r.code)
    else r.code
  match sel with
  | some c => if c ≠ "" then some (pyStrip (pyReplace c "{modifier}" modifier)) else none
  | none => none

/-- Does any pattern of the rule match (its lowercase text occurs in the
lowercased description)?  `(p or "").lower() in text`. -/
def ruleMatches (r : Rule) (text : String) : Bool :=
  r.patterns.any (fun p => strIn (pyLower p) text)

/-- The file-rule scan, lines 59-72 of `task_translator.py`: rules in
load order; a rule with neither `code` nor `code_macos` truthy is
skipped; on the first matching pattern the fill is attempted and, when
the selected template is falsy, the rule is abandoned (`break`) and the
scan continues. -/
def applyFileRules (use_macos : Bool) (modifier : String) (text : String) :
    List Rule → Option String
  | [] => none
  | r :: rs =>
    if !optTruthy r.code && !optTruthy r.code_macos then
      applyFileRules use_macos modifier text rs
    else if ruleMatches r text then
      match ruleFill use_macos modifier r with
      | some c => some c
      | none => applyFileRules use_macos modifier text rs
    else
      applyFileRules use_macos modifier text rs

/-! ### The two `re.search` patterns of built-in rule 2

`re.search(r"type\s+['\"]?([^'\"]+)['\"]?\s*(?:and\s+)?(?:press\s+enter|then\s+enter)?", text, re.I)`
is embedded by `cap1Search`.  Every part after the capturing group is
optional and can match the empty string, so a match at a position
succeeds exactly when the literal `type` is followed by at least one
whitespace character, an optional quote, and at least one non-quote
character; the group is the maximal run of non-quote characters there
(the greedy group never backtracks because the optional tail always
succeeds).  `re.search` takes the leftmost position at which the
pattern matches.  The text handed to it is already lowercased, which
makes `re.I` inert. -/

def isQuote (c : Char) : Bool :=
  c = '\'' || c = '\"'

/-- The group `([^'\"]+)`: the maximal non-empty run of non-quote
characters at the current position. -/
def cap1Group (u : List Char) : Option (List Char) :=
  let g := u.takeWhile (fun c => !isQuote c)
  if g.isEmpty then none else some g

/-- `['\"]?([^'\"]+)` with backtracking: the optional quote is consumed
when present, falling back to not consuming it. -/
def cap1Quote (u : List Char) : Option (List Char) :=
  match u with
  | c :: cs => if isQuote c then (cap1Group cs).orElse (fun _ => cap1Group u) else cap1Group u
  | [] => none

/-- `\s+` with backtracking: try the maximal whitespace run first, then
shorter non-empty prefixes. -/
def cap1Try (t : List Char) : Nat → Option (List Char)
  | 0 => none
  | k + 1 => (cap1Quote (t.drop (k + 1))).orElse (fun _ => cap1Try t k)

/-- Match the whole pattern at one position (which must start with the
literal `type`). -/
def cap1At (t : List Char) : Option (List Char) :=
  if ("type".toList).isPrefixOf t then
    let rest := t.drop 4
    cap1Try rest ((rest.takeWhile isPySpace).length)
  else none

/-- `re.search`: leftmost matching position wins. -/
def cap1Search : List Char → Option (List Char)
  | [] => none
  | c :: cs => (cap1At (c :: cs)).orElse (fun _ => cap1Search cs)

/-- `re.search(r"type\s+(\d+[\+\-\*\/]\d+)", text)`: the bare
arithmetic-expression capture.  After the literal `type`, at least one
whitespace character, then digits, one operator, digits (all runs
maximal; no backtracking can help because digit, operator and
whitespace classes are disjoint). -/
def isOpChar (c : Char) : Bool :=
  c = '+' || c = '-' || c = '*' || c = '/'

def cap2At (t : List Char) : Option (List Char) :=
  if ("type".toList).isPrefixOf t then
    let rest := t.drop 4
    let ws := rest.takeWhile isPySpace
    if ws.isEmpty then none
    else
      let u := rest.drop ws.length
      let d1 := u.takeWhile Char.isDigit
      if d1.isEmpty then none
      else
        match u.drop d1.length with
        | op :: v =>
          if isOpChar op then
            let d2 := v.takeWhile Char.isDigit
            if d2.isEmpty then none else some (d1 ++ [op] ++ d2)
          else none
        | [] => none
  else none

def cap2Search : List Char → Option (List Char)
  | [] => none
  | c :: cs => (cap2At (c :: cs)).orElse (fun _ => cap2Search cs)

/-- `translate_task_to_code(thought, user_env)` of
`src/task_translator.py`, with the contents of the (hot-reloaded) rule
file passed explicitly as `rules` — `load_rules()` returns `[]` when
`data/task_translator_rules.json` is missing, as in the repository as
shipped. -/
def translate_task_to_code (rules : List Rule) (thought : String)
    (user_env : String) : Option String :=
  if pyStrip thought = "" then none
  else
    let text := pyLower (pyStrip thought)
    let modifier := modifier_key user_env
    let use_macos_code := is_macos user_env
    match applyFileRules use_macos_code modifier text rules with
    | some c => some c
    | none =>
      -- built-in rule 1: open/launch/run + calculator
      if strIn "calculator" text &&
          (strIn "open" text || strIn "launch" text || strIn "run" text) then
        if use_macos_code then
          some "import pyautogui; pyautogui.hotkey('command', 'space'); pyautogui.write('Calculator'); pyautogui.press('enter')"
        else
          some "import pyautogui; pyautogui.hotkey('win', 'r'); pyautogui.write('calc'); pyautogui.press('enter')"
      else
        -- built-in rule 2: type + enter, quoted/bare capture then
        -- arithmetic capture; when both captures fail control falls
        -- through to built-in rule 3
        let rule2 : Option String :=
          if strIn "type" text && (strIn "enter" text || strIn "press enter" text) then
            match cap1Search text.toList with
            | some g =>
              some ("import pyautogui; pyautogui.write('" ++ pyStrip g.asString ++
                "'); pyautogui.press('enter')")
            | none =>
              match cap2Search text.toList with
              | some g =>
                some ("import pyautogui; pyautogui.write('" ++ pyStrip g.asString ++
                  "'); pyautogui.press('enter')")
              | none => none
          else none
        match rule2 with
        | some c => some c
        | none =>
          -- built-in rule 3: hello world
          if strIn "hello world" text && (strIn "type" text || strIn "type" text) then
            some "import pyautogui; pyautogui.write('Hello World')"
          else none

/-! ## JSON values and `json.loads` (`src/app.py` reply handling)

`JVal` models the values `json.loads` can return.  Python's `json`
module turns an integer literal (no fraction, no exponent) into an
exact, arbitrary-precision `int`, and every other numeric literal —
plus the `NaN`/`Infinity`/`-Infinity` constants it accepts by
default — into an IEEE 754 binary64 `float` via CPython's correctly
rounded string-to-double conversion (`float(s)` returns the signed
infinity on overflow and zero on underflow instead of raising).  Both
are modelled exactly: `PFloat` carries a finite double as an exact
integer multiple of `2 ^ (-1074)` (the smallest subnormal), so float
truthiness and `int(float)` (which raises `OverflowError` on an
infinity and `ValueError` on NaN) can be computed faithfully.  The
sign of a floating zero is collapsed: `-0.0` and `0.0` agree on
truthiness and `int()`, the only float observers in the source. -/

/-- A CPython `float` (IEEE 754 binary64): a finite value as the exact
integer `n` with value `n * 2 ^ (-1074)`, an infinity with its sign
(`true` = negative), or NaN. -/
inductive PFloat where
  | finite : Int → PFloat
  | inf : Bool → PFloat
  | nan : PFloat
deriving DecidableEq, Repr

/-- Pythonic truthiness of a float: only zero is falsy (`bool` of NaN
and of the infinities is `True`). -/
def pfTruthy : PFloat → Bool
  | .finite n => n ≠ 0
  | .inf _ => true
  | .nan => true

/-- `Nat.log2`, fuelled so that the kernel can evaluate it (the core
function recurses by well-founded recursion, which `rfl`/`decide`
cannot reduce): `log2Fuel f n = Nat.log2 n` whenever `f ≥ log2 n`. -/
def log2Fuel : Nat → Nat → Nat
  | 0, _ => 0
  | fuel + 1, n => if n ≤ 1 then 0 else log2Fuel fuel (n / 2) + 1

/-- `b ^ k` by fuelled binary exponentiation (square the base, halve
the exponent): evaluation is logarithmically deep in `k`, where a
literal `b ^ k` with a four-digit exponent unfolds linearly deep and
blows the evaluation stack.  `k` itself is always sufficient fuel. -/
def powFuel (b : Nat) : Nat → Nat → Nat
  | 0, _ => 1
  | _ + 1, 0 => 1
  | fuel + 1, k => powFuel (b * b) fuel (k / 2) * (if k % 2 = 1 then b else 1)

/-- `b ^ k` with shallow evaluation. -/
def npow (b k : Nat) : Nat :=
  powFuel b k k

/-- `N / D ≥ 2 ^ k` for naturals (`D > 0`) and an integer exponent. -/
def gePow2 (N D : Nat) (k : Int) : Bool :=
  if 0 ≤ k then decide (D * npow 2 k.toNat ≤ N) else decide (D ≤ N * npow 2 (-k).toNat)

/-- `num / den` rounded to the nearest natural, ties to even — the
IEEE 754 default rounding applied by CPython's string-to-double
conversion. -/
def roundHalfEven (num den : Nat) : Nat :=
  let q := num / den
  let r := num % den
  if 2 * r < den then q
  else if den < 2 * r then q + 1
  else if q % 2 = 0 then q else q + 1

/-- Correctly rounded conversion of the decimal
`(-1)^neg * m * 10 ^ e10` to an IEEE 754 binary64, exactly as CPython's
`float(str)` — and hence the `json` module's `parse_float` — performs
it: round to nearest, ties to even, overflowing to the signed infinity
and underflowing to zero.  `mlen` is any upper bound on the decimal
digit count of `m` (the caller passes the literal's digit count).  The
two early guards only shortcut decimals certainly beyond `10 ^ 309`
(every such value overflows: the overflow threshold is
`2 ^ 1024 - 2 ^ 970 < 1.8 * 10 ^ 308`) or certainly below
`10 ^ (-324)` (every such value underflows: the underflow threshold is
`2 ^ (-1075) > 2.4 * 10 ^ (-324)`); they also bound the arithmetic so
that the kernel can evaluate the conversion.  Otherwise the value is
written as a fraction `N / D`, its binary exponent `e` is located via
`log2`, and the significand is rounded at the granularity
`2 ^ max (e - 52) (-1074)`, which is exactly the double rounding (the
`4 * mlen + 2600` fuel dominates `log2` of both `N ≤ m * 10 ^ 308` and
`D ≤ 10 ^ (323 + mlen)`). -/
def decToDouble (neg : Bool) (m mlen : Nat) (e10 : Int) : PFloat :=
  if m = 0 then .finite 0
  else if 309 ≤ e10 then .inf neg
  else if e10 + mlen ≤ -324 then .finite 0
  else
    let N := if 0 ≤ e10 then m * npow 10 e10.toNat else m
    let D := if 0 ≤ e10 then 1 else npow 10 (-e10).toNat
    let fl := 4 * mlen + 2600
    let a : Int := log2Fuel fl N
    let b : Int := log2Fuel fl D
    let e : Int := if gePow2 N D (a - b) then a - b else a - b - 1
    let u : Int := max (e - 52) (-1074)
    let q := if 0 ≤ u then roundHalfEven N (D * npow 2 u.toNat)
             else roundHalfEven (N * npow 2 (-u).toNat) D
    let n := q * npow 2 (u + 1074).toNat
    if npow 2 2098 ≤ n then .inf neg
    else .finite (if neg then -(n : Int) else (n : Int))

inductive JVal where
  | null : JVal
  | bool : Bool → JVal
  | num : Int → JVal
  | float : PFloat → JVal
  | str : String → JVal
  | arr : List JVal → JVal
  | obj : List (String × JVal) → JVal

/-- Pythonic truthiness of a decoded JSON value. -/
def jTruthy : JVal → Bool
  | .null => false
  | .bool b => b
  | .num n => n ≠ 0
  | .float f => pfTruthy f
  | .str s => s ≠ ""
  | .arr xs => !xs.isEmpty
  | .obj fs => !fs.isEmpty

/-- `dict.get(k)` on a decoded JSON object (`json.loads` keeps the last
binding of a duplicated key; a missing key gives Python `None`, which
behaves exactly like JSON `null` at every use site). -/
def objGet (fs : List (String × JVal)) (k : String) : JVal :=
  fs.foldl (fun acc kv => if kv.1 = k then kv.2 else acc) JVal.null

/-- Python `a or b` on decoded values. -/
def pyOr (a b : JVal) : JVal :=
  if jTruthy a then a else b

/-! ### A `json.loads` executable model -/

def skipWs (cs : List Char) : List Char :=
  cs.dropWhile isPySpace

def hexVal (c : Char) : Option Nat :=
  let n := c.toNat
  if 48 ≤ n && n ≤ 57 then some (n - 48)
  else if 97 ≤ n && n ≤ 102 then some (n - 87)
  else if 65 ≤ n && n ≤ 70 then some (n - 55)
  else none

/-- Body of a JSON string literal (after the opening quote): returns the
decoded characters and the remaining input.  Strict, like Python's
decoder: unescaped control characters and unknown escapes are
rejected. -/
def parseStrBody : List Char → Option (List Char × List Char)
  | [] => none
  | '\"' :: rest => some ([], rest)
  | '\\' :: 'u' :: h1 :: h2 :: h3 :: h4 :: rest => do
    let a ← hexVal h1
    let b ← hexVal h2
    let c ← hexVal h3
    let d ← hexVal h4
    let (tail, rem) ← parseStrBody rest
    let code := ((a * 16 + b) * 16 + c) * 16 + d
    some ((Char.ofNat code) :: tail, rem)
  | '\\' :: e :: rest => do
    let c ← match e with
      | '\"' => some '\"'
      | '\\' => some '\\'
      | '/' => some '/'
      | 'b' => some '\x08'
      | 'f' => some '\x0c'
      | 'n' => some '\n'
      | 'r' => some '\r'
      | 't' => some '\t'
      | _ => none
    let (tail, rem) ← parseStrBody rest
    some (c :: tail, rem)
  | c :: rest =>
    if c.toNat < 0x20 then none
    else do
      let (tail, rem) ← parseStrBody rest
      some (c :: tail, rem)

def digitsToNat (ds : List Char) : Nat :=
  ds.foldl (fun acc c => 10 * acc + (c.toNat - 48)) 0

/-- JSON number literal at the head of the input:
`-?(0|[1-9][0-9]*)(\.[0-9]+)?([eE][+-]?[0-9]+)?`.  An integer literal
(no fraction, no exponent) is a Python `int`, exact and unbounded; any
other literal goes through the correctly rounded string-to-double
conversion (`parse_float=float`). -/
def parseNum (cs : List Char) : Option (JVal × List Char) :=
  let (neg, cs1) := match cs with
    | '-' :: rest => (true, rest)
    | _ => (false, cs)
  let intDigits := cs1.takeWhile Char.isDigit
  if intDigits.isEmpty then none
  else if intDigits.length > 1 && intDigits.headI = '0' then none
  else
    let cs2 := cs1.drop intDigits.length
    let (hasFrac, fracDigits, cs3) := match cs2 with
      | '.' :: rest =>
        let fd := rest.takeWhile Char.isDigit
        (true, fd, rest.drop fd.length)
      | _ => (false, [], cs2)
    if hasFrac && fracDigits.isEmpty then none
    else
      let (expOk, expNeg, expDigits, cs4) := match cs3 with
        | 'e' :: '+' :: rest => (true, false, rest.takeWhile Char.isDigit, rest)
        | 'e' :: '-' :: rest => (true, true, rest.takeWhile Char.isDigit, rest)
        | 'e' :: rest => (true, false, rest.takeWhile Char.isDigit, rest)
        | 'E' :: '+' :: rest => (true, false, rest.takeWhile Char.isDigit, rest)
        | 'E' :: '-' :: rest => (true, true, rest.takeWhile Char.isDigit, rest)
        | 'E' :: rest => (true, false, rest.takeWhile Char.isDigit, rest)
        | _ => (false, false, [], cs3)
      if expOk && expDigits.isEmpty then none
      else
        let rest := if expOk then cs4.drop expDigits.length else cs3
        let digits := intDigits ++ fracDigits
        let mantissa := digitsToNat digits
        if !hasFrac && !expOk then
          some (.num (if neg then -(mantissa : Int) else (mantissa : Int)), rest)
        else
          let e10 : Int := (if expOk && !expNeg then (digitsToNat expDigits : Int) else 0) -
            (if expOk && expNeg then (digitsToNat expDigits : Int) else 0) - fracDigits.length
          some (.float (decToDouble neg mantissa digits.length e10), rest)

mutual

/-- One JSON value at the head of the input (leading whitespace
allowed), fuelled so that the kernel can evaluate it. -/
def parseVal : Nat → List Char → Option (JVal × List Char)
  | 0, _ => none
  | fuel + 1, cs =>
    match skipWs cs with
    | '{' :: rest => parseObjRest fuel [] (skipWs rest)
    | '[' :: rest => parseArrRest fuel [] (skipWs rest)
    | '\"' :: rest => do
      let (body, rem) ← parseStrBody rest
      some (.str body.asString, rem)
    | 't' :: 'r' :: 'u' :: 'e' :: rest => some (.bool true, rest)
    | 'f' :: 'a' :: 'l' :: 's' :: 'e' :: rest => some (.bool false, rest)
    | 'n' :: 'u' :: 'l' :: 'l' :: rest => some (.null, rest)
    | 'N' :: 'a' :: 'N' :: rest => some (.float .nan, rest)
    | 'I' :: 'n' :: 'f' :: 'i' :: 'n' :: 'i' :: 't' :: 'y' :: rest =>
      some (.float (.inf false), rest)
    | '-' :: 'I' :: 'n' :: 'f' :: 'i' :: 'n' :: 'i' :: 't' :: 'y' :: rest =>
      some (.float (.inf true), rest)
    | cs' => parseNum cs'

/-- Members of an object, positioned just after `{` or after a comma
(whitespace already skipped); `acc` holds the members parsed so far in
reverse. -/
def parseObjRest : Nat → List (String × JVal) → List Char →
    Option (JVal × List Char)
  | 0, _, _ => none
  | _ + 1, acc, '}' :: rest =>
    if acc.isEmpty then some (.obj [], rest) else none
  | fuel + 1, acc, cs => do
    let (k, cs1) ← match cs with
      | '\"' :: rest => do
        let (body, rem) ← parseStrBody rest
        some (body.asString, rem)
      | _ => none
    let cs2 := skipWs cs1
    let cs3 ← match cs2 with
      | ':' :: rest => some rest
      | _ => none
    let (v, cs4) ← parseVal fuel cs3
    let cs5 := skipWs cs4
    match cs5 with
    | ',' :: rest => parseObjKV fuel ((k, v) :: acc) (skipWs rest)
    | '}' :: rest => some (.obj (((k, v) :: acc).reverse), rest)
    | _ => none

/-- After a comma in an object: the next member is mandatory. -/
def parseObjKV : Nat → List (String × JVal) → List Char →
    Option (JVal × List Char)
  | 0, _, _ => none
  | fuel + 1, acc, cs => do
    let (k, cs1) ← match cs with
      | '\"' :: rest => do
        let (body, rem) ← parseStrBody rest
        some (body.asString, rem)
      | _ => none
    let cs2 := skipWs cs1
    let cs3 ← match cs2 with
      | ':' :: rest => some rest
      | _ => none
    let (v, cs4) ← parseVal fuel cs3
    let cs5 := skipWs cs4
    match cs5 with
    | ',' :: rest => parseObjKV fuel ((k, v) :: acc) (skipWs rest)
    | '}' :: rest => some (.obj (((k, v) :: acc).reverse), rest)
    | _ => none

/-- Elements of an array, positioned just after `[` (whitespace already
skipped). -/
def parseArrRest : Nat → List JVal → List Char → Option (JVal × List Char)
  | 0, _, _ => none
  | fuel + 1, acc, cs =>
    match cs with
    | ']' :: rest =>
      if acc.isEmpty then some (.arr [], rest) else none
    | _ => do
      let (v, cs1) ← parseVal fuel cs
      let cs2 := skipWs cs1
      match cs2 with
      | ',' :: rest => parseArrElem fuel (v :: acc) rest
      | ']' :: rest => some (.arr ((v :: acc).reverse), rest)
      | _ => none

/-- After a comma in an array: the next element is mandatory. -/
def parseArrElem : Nat → List JVal → List Char → Option (JVal × List Char)
  | 0, _, _ => none
  | fuel + 1, acc, cs => do
    let (v, cs1) ← parseVal fuel cs
    let cs2 := skipWs cs1
    match cs2 with
    | ',' :: rest => parseArrElem fuel (v :: acc) rest
    | ']' :: rest => some (.arr ((v :: acc).reverse), rest)
    | _ => none

end

/-- `json.loads` on a character list: one value, then only trailing
whitespace (otherwise Python raises `JSONDecodeError`, which the source
always catches — hence `Option`). -/
def jsonLoadsL (cs : List Char) : Option JVal :=
  match parseVal (2 * cs.length + 4) cs with
  | some (v, rest) => if (skipWs rest).isEmpty then some v else none
  | none => none

/-- `json.loads` on a string. -/
def jsonLoads (s : String) : Option JVal :=
  jsonLoadsL s.toList

/-! ### The two reply-scanning regexes of `_call_minimax_api`

Stage 1 uses `re.search(r"```(?:json)?\s*(\{[\s\S]*?\})\s*```", raw)`.
The lazy group grows one character at a time until a `}` is followed by
optional whitespace and a closing fence; `(?:json)?` prefers consuming
`json` and falls back; `\s*` before `{` is deterministic because `{` is
not whitespace.  Stage 3 uses
`re.search(r"\{[^{}]*(?:\{[^{}]*\}[^{}]*)*\}", raw)`: a brace span with
at most one level of nesting, again at the leftmost matching
position. -/

/-- Does optional whitespace followed by a closing fence start here? -/
def fenceClose (cs : List Char) : Bool :=
  ("```".toList).isPrefixOf (skipWs cs)

/-- The lazy `[\s\S]*?\}` scan: `acc` holds the group body so far in
reverse; stop at the first `}` whose remainder closes the fence. -/
def fenceBody : List Char → List Char → Option (List Char)
  | _, [] => none
  | acc, c :: cs =>
    if c = '}' && fenceClose cs then some ('{' :: (acc.reverse ++ ['}']))
    else fenceBody (c :: acc) cs

/-- Match the fenced-JSON pattern at one position (which must start
with three backticks); returns the captured `{...}` group. -/
def fenceAt (cs : List Char) : Option (List Char) :=
  if ("```".toList).isPrefixOf cs then
    let afterTicks := cs.drop 3
    let tryFrom := fun (u : List Char) =>
      match skipWs u with
      | '{' :: rest => fenceBody [] rest
      | _ => none
    if ("json".toList).isPrefixOf afterTicks then
      (tryFrom (afterTicks.drop 4)).orElse (fun _ => tryFrom afterTicks)
    else tryFrom afterTicks
  else none

/-- `re.search` for the fenced pattern: leftmost match. -/
def fenceSearch : List Char → Option (List Char)
  | [] => none
  | c :: cs => (fenceAt (c :: cs)).orElse (fun _ => fenceSearch cs)

def nonBrace (c : Char) : Bool :=
  c ≠ '{' && c ≠ '}'

/-- The starred part of the brace pattern plus the final `\}`; `acc` is
the span matched so far in reverse. -/
def braceLoop : Nat → List Char → List Char → Option (List Char)
  | _, acc, '}' :: _ => some (acc.reverse ++ ['}'])
  | fuel + 1, acc, '{' :: u =>
    let r := u.takeWhile nonBrace
    (match u.drop r.length with
     | '}' :: v =>
       let r2 := v.takeWhile nonBrace
       braceLoop fuel (r2.reverse ++ '}' :: r.reverse ++ '{' :: acc) (v.drop r2.length)
     | _ => none)
  | _, _, _ => none

/-- Match the brace pattern at one position (which must start with
`{`). -/
def braceAt : List Char → Option (List Char)
  | '{' :: rest =>
    let r0 := rest.takeWhile nonBrace
    braceLoop rest.length (r0.reverse ++ ['{']) (rest.drop r0.length)
  | _ => none

/-- `re.search` for the brace pattern: leftmost match. -/
def braceSearch : List Char → Option (List Char)
  | [] => none
  | c :: cs => (braceAt (c :: cs)).orElse (fun _ => braceSearch cs)

/-! ### Parsing and default filling in `_call_minimax_api`
(`src/app.py` lines 308-349) -/

/-- Stage 1: fenced block, `json.loads` failure swallowed. -/
def fencedJson (raw : String) : Option JVal :=
  match fenceSearch raw.toList with
  | some span => jsonLoadsL span
  | none => none

/-- The three text-extraction stages in order: fenced block; the
trimmed raw reply; on a decode error of the latter, the first brace
span.  (When a later stage fails Python keeps the earlier, necessarily
falsy, value; both are rejected identically by the `not parsed` guard,
so collapsing them to `none`-or-the-new-value is observationally
exact.) -/
def extractJson (raw : String) : Option JVal :=
  let p1 := fencedJson raw
  if p1.any jTruthy then p1
  else
    match jsonLoads (pyStrip raw) with
    | some v => some v
    | none =>
      match braceSearch raw.toList with
      | some span => jsonLoadsL span
      | none => p1

/-- The decision dict built by `_call_minimax_api` after parsing:
`thought` and `code` keep whatever JSON value landed in them (the
source applies no type check there), `status` is a normalized string,
and the first-step extras are already reduced to the forms the caller
tests (`total_steps` an optional integer, `checkpoints` a list). -/
structure ParsedDecision where
  thought : JVal
  code : JVal
  status : String
  total_steps : Option Int
  checkpoints : List Int
  raw : String

/-- The exceptions `int(x)` can raise: `TypeError` (a value with no
integer conversion), `ValueError` (a malformed numeric string, or NaN),
`OverflowError` (an infinite float).  The call sites differ in which of
these they catch. -/
inductive IntConvErr where
  | typeErr : IntConvErr
  | valueErr : IntConvErr
  | overflowErr : IntConvErr
deriving DecidableEq

/-- Digit groups of a Python integer string: ASCII digits with single
underscores allowed only between two digits (CPython's grouping rule);
returns the digits with the separators removed, or `none` when the
string is malformed. -/
def intDigitsU : List Char → Option (List Char)
  | [] => none
  | [c] => if c.isDigit then some [c] else none
  | c :: d :: rest =>
    if !c.isDigit then none
    else if d = '_' then
      match rest with
      | [] => none
      | r :: _ => if r.isDigit then (intDigitsU rest).map (fun l => c :: l) else none
    else (intDigitsU (d :: rest)).map (fun l => c :: l)

/-- `int(s)` for a string: strip (Python strips the same whitespace),
an optional sign, then digit groups; anything else raises `ValueError`
(`none`).  Strings of more than 4300 digits also raise `ValueError`
(CPython's default integer-string conversion limit).  Non-ASCII
unicode digits, which CPython also accepts, are outside the model;
they cannot make `int()` raise, so at the single — caught — call site
the conservative `none` only turns an exotic `total_steps` value into
the `None` the program uses for an unparseable count. -/
def intOfString (s : String) : Option Int :=
  let cs := stripChars s.toList
  let (neg, body) := match cs with
    | '-' :: rest => (true, rest)
    | '+' :: rest => (false, rest)
    | _ => (false, cs)
  match intDigitsU body with
  | some ds =>
    if 4300 < ds.length then none
    else some (if neg then -(digitsToNat ds : Int) else (digitsToNat ds : Int))
  | none => none

/-- Python `int(x)` on a decoded JSON value.  Booleans are integers;
`int` of a finite float truncates toward zero; `int` of an infinity
raises `OverflowError` and of NaN raises `ValueError`. -/
def pyIntE : JVal → Except IntConvErr Int
  | .num n => .ok n
  | .bool b => .ok (if b then 1 else 0)
  | .float (.finite n) =>
    .ok (if 0 ≤ n then ((n.toNat / npow 2 1074 : Nat) : Int)
         else -(((-n).toNat / npow 2 1074 : Nat) : Int))
  | .float (.inf _) => .error .overflowErr
  | .float .nan => .error .valueErr
  | .str s =>
    match intOfString s with
    | some n => .ok n
    | none => .error .valueErr
  | _ => .error .typeErr

/-- The `total_steps` reduction of `src/app.py` lines 340-342:
`int(parsed.get("total_steps") or 0) or None` under
`except (TypeError, ValueError)` — which does not catch the
`OverflowError` that `int()` raises on an infinite float, so that one
propagates. -/
def totalStepsField (fs : List (String × JVal)) : Except String (Option Int) :=
  match pyIntE (pyOr (objGet fs "total_steps") (.num 0)) with
  | .ok n => .ok (if n = 0 then none else some n)
  | .error .overflowErr => .error "OverflowError: cannot convert float infinity to integer"
  | .error _ => .ok none

/-- `isinstance(x, (int, float))`: ints, booleans (a subclass of
`int`) and floats. -/
def isNumLike : JVal → Bool
  | .num _ => true
  | .bool _ => true
  | .float _ => true
  | _ => false

/-- The `checkpoints` comprehension of `src/app.py` line 346:
`[int(x) for x in raw_cp if isinstance(x, (int, float))]` — guarded by
no `try`, so `int()` on an infinite or NaN float raises out of
`_call_minimax_api` (the `typeErr` arm is unreachable: every value
passing the `isinstance` filter has an integer conversion). -/
def cpList : List JVal → Except String (List Int)
  | [] => .ok []
  | x :: rest =>
    if isNumLike x then
      match pyIntE x with
      | .ok n => (cpList rest).map (fun l => n :: l)
      | .error .overflowErr => .error "OverflowError: cannot convert float infinity to integer"
      | .error .valueErr => .error "ValueError: cannot convert float NaN to integer"
      | .error .typeErr => .error "TypeError"
    else cpList rest

/-- The `checkpoints` reduction of `src/app.py` lines 343-348: the
comprehension over a list value, the empty list otherwise. -/
def checkpointsField (fs : List (String × JVal)) : Except String (List Int) :=
  match objGet fs "checkpoints" with
  | .arr xs => cpList xs
  | _ => .ok []

/-- Default filling, `src/app.py` lines 332-348.  `thought` falls back
to `reasoning` and then to `"No thought."`; `code` to `"pass"`;
`status` is stripped, upper-cased and coerced into the three-element
enumeration — and `.strip()` on a truthy non-string status raises
`AttributeError`, modelled as `.error`.  On the first step
`total_steps` and then `checkpoints` are reduced as above, either of
which can raise `OverflowError`/`ValueError` on infinite or NaN float
fields. -/
def fillDecision (fs : List (String × JVal)) (is_first : Bool) (raw : String) :
    Except String ParsedDecision :=
  let thought := pyOr (objGet fs "thought") (pyOr (objGet fs "reasoning") (.str "No thought."))
  let code := pyOr (objGet fs "code") (.str "pass")
  match pyOr (objGet fs "status") (.str "CONTINUE") with
  | .str s =>
    let s1 := pyUpper (pyStrip s)
    let status := if s1 = "CONTINUE" || s1 = "SUCCESS" || s1 = "LOST" then s1 else "CONTINUE"
    if is_first then
      match totalStepsField fs with
      | .error e => .error e
      | .ok ts =>
        match checkpointsField fs with
        | .error e => .error e
        | .ok cps =>
          .ok { thought := thought, code := code, status := status,
                total_steps := ts, checkpoints := cps, raw := raw }
    else
      .ok { thought := thought, code := code, status := status,
            total_steps := none, checkpoints := [], raw := raw }
  | _ => .error "AttributeError: object has no attribute strip"

/-- The parsing-and-default-filling stage of `_call_minimax_api`
(`src/app.py` lines 308-349), applied to the raw text reply:
`.ok none` is the `return None` path (reply unusable), `.ok (some d)`
is a filled decision, `.error` is an uncaught Python exception. -/
def parseMinimaxReply (raw : String) (is_first : Bool) :
    Except String (Option ParsedDecision) :=
  match extractJson raw with
  | some (JVal.obj fs) =>
    if jTruthy (JVal.obj fs) then (fillDecision fs is_first raw).map some
    else .ok none
  | _ => .ok none

/-! ## The step pipeline of `main` (`src/app.py` lines 980-1302)

One Streamlit rerun executes at most one step.  The pipeline's
collaborators (screenshot capture, the MiniMax client, `exec`, the
verifier, the rule file read by the translator) are driven by a
per-step oracle `StepEnv`; the Streamlit session state plus the DuckDB
side effects form `AppState`.  `st.rerun()` and `st.stop()` raise
control-flow exceptions deriving from `BaseException`, so the
`except Exception` handler at line 1204 does not catch them: they are
modelled as the end of the rerun (the function returns the state).
DuckDB is modelled as reliable; its operations are recorded in order in
`AppState.db` so that both the persisted rows and the ordering of
status updates against record inserts are visible. -/

/-- The decision dict `analyze_screenshot` hands the loop: either a
parsed API decision or the deterministic stub.  (`thought`, `code`,
`status` are strings here; a reply whose `thought`/`code` are
non-strings makes the loop's slicing raise, which the oracle expresses
as `ApiOutcome.raised`.) -/
structure Decision where
  thought : String
  code : String
  status : String
  total_steps : Option Int
  checkpoints : List Int
deriving DecidableEq

/-- What the reasoning stage does on this step: raise an uncaught
exception (e.g. the `AttributeError` of `fillDecision`, which
propagates out of `_call_minimax_api` into `main`'s catch-all), return
a parsed decision, or return `None` (API failure or stub mode), which
makes `analyze_screenshot` fall through to the stub. -/
inductive ApiOutcome where
  | raised : String → ApiOutcome
  | decided : Decision → ApiOutcome
  | unavailable : ApiOutcome
deriving DecidableEq

/-- `{achieved: bool, reason: str}` as returned by
`verify_step_achieved` / `validate_goal_achieved`. -/
structure VerifResult where
  achieved : Bool
  reason : String
deriving DecidableEq

/-- What `verify_step_achieved` does: return `None` (stub mode,
transport fault, or unparseable reply), return a result, or raise (its
parse can raise, e.g. `parsed.get` on a decoded list; uncaught there,
so it lands in `main`'s catch-all). -/
inductive VerifyOutcome where
  | absent : VerifyOutcome
  | result : VerifResult → VerifyOutcome
  | raised : String → VerifyOutcome
deriving DecidableEq

/-- The per-step oracle: everything outside the loop's own state that
can influence one rerun. -/
structure StepEnv where
  capture_before_ok : Bool
  api : ApiOutcome
  rules : List Rule
  api_translate : Option String
  exec_fault : Option String
  capture_after_ok : Bool
  verify : VerifyOutcome
  user_env : String

/-- One `audit_log` row (columns in table order; `action` is the short
summary column, `feedback` the failure detail). -/
structure AuditRec where
  step_number : Nat
  thought : String
  code : Option String
  action : String
  feedback : Option String
  status : String
  outcome : String
  shot_before : Option String
  shot_after : Option String
  ver_achieved : Option String
  ver_reason : Option String
deriving DecidableEq

/-- One in-memory history entry (`st.session_state.history`). -/
structure HistRec where
  step_number : Nat
  thought : String
  code : String
  status : String
  outcome : String
deriving DecidableEq

/-- A DuckDB write, in chronological order. -/
inductive DbOp where
  | insertRec : AuditRec → DbOp
  | setStatus : String → DbOp
  | insertPM : String → String → String → Option String → Option String → DbOp
deriving DecidableEq

/-- The session row's `status` column after a sequence of writes (the
session is created with status `running`). -/
def sessionStatus (db : List DbOp) : String :=
  db.foldl (fun acc op => match op with
    | .setStatus s => s
    | _ => acc) "running"

/-- The persisted step numbers, in insert order. -/
def recordSteps (db : List DbOp) : List Nat :=
  db.filterMap (fun op => match op with
    | .insertRec r => some r.step_number
    | _ => none)

/-- The Streamlit session state plus the recorded side effects. -/
structure AppState where
  session_id : String
  goal : String
  step_number : Nat
  max_steps : Nat
  is_running : Bool
  history : List HistRec
  checkpoints : List Int
  planned_total_steps : Option Int
  current_shot_before : Option String
  latest_screenshot : Option String
  executed : List String
  db : List DbOp

/-- The screenshot path scheme of the loop. -/
def shotPath (sid : String) (n : Nat) (kind : String) : String :=
  "data/screenshots/" ++ sid ++ "/step_" ++ toString n ++ "_" ++ kind ++ ".png"

/-- `str(b)` for a Python boolean. -/
def pyBoolStr (b : Bool) : String :=
  if b then "True" else "False"

/-- The state created by the Start button (`src/app.py` lines 885-911):
step number 1, the user's retry cap, empty history and checkpoints, and
a session row inserted with status `running`. -/
def initState (sid goal : String) (budget : Nat) : AppState :=
  { session_id := sid, goal := goal, step_number := 1, max_steps := budget,
    is_running := true, history := [], checkpoints := [],
    planned_total_steps := none, current_shot_before := none,
    latest_screenshot := none, executed := [], db := [] }

/-- The deterministic stub decision (`analyze_screenshot`,
`src/app.py` lines 580-601), keyed on `len(history) + 1`. -/
def stubDecision (step_num : Nat) : Decision :=
  if step_num = 1 then
    { thought := "Demo stub: Opening Calculator via Run dialog"
      code := "import pyautogui; pyautogui.hotkey('win', 'r'); pyautogui.write('calc'); pyautogui.press('enter')"
      status := "CONTINUE", total_steps := some 3, checkpoints := [2] }
  else if step_num = 2 then
    { thought := "Demo stub: Typing 'Hello World' in Calculator"
      code := "import pyautogui; pyautogui.write('Hello World')"
      status := "SUCCESS", total_steps := none, checkpoints := [] }
  else
    { thought := "Goal achieved", code := "pass", status := "SUCCESS",
      total_steps := none, checkpoints := [] }

/-- `analyze_screenshot` as the loop sees it: a parsed API decision is
passed through, but its first-step extras are dropped unless the
history is empty (`is_first = len(history) == 0` gates which keys the
returned dict carries); `None` from the API falls through to the stub;
an uncaught exception propagates. -/
def analyzeResult (e : StepEnv) (history : List HistRec) : Except String Decision :=
  match e.api with
  | .raised m => .error m
  | .decided d =>
    .ok (if history.isEmpty then d
         else { d with total_steps := none, checkpoints := [] })
  | .unavailable => .ok (stubDecision (history.length + 1))

/-- Line 1048: `code.replace("pyautogui.sleep(", "time.sleep(")`,
guarded by a substring test that does not change the result. -/
def fixSleep (code : String) : String :=
  if strIn "pyautogui.sleep(" code then pyReplace code "pyautogui.sleep(" "time.sleep(" else code

/-- Line 1050: a 0.6-second delay spliced in at every occurrence of
`"; pyautogui."`. -/
def addDelays (code : String) : String :=
  pyReplace code "; pyautogui." "; time.sleep(0.6); pyautogui."

/-- The `code_to_run` actually handed to `exec` (lines 1047-1050). -/
def codeToRun (code : String) : String :=
  addDelays (fixSleep code)

/-- `action_summary` (lines 1114 and 1146): the thought truncated to
120 characters with an ellipsis, `—` when blank. -/
def actionSummary (thought : String) : String :=
  if thought ≠ "" && thought.length > 120 then
    ((thought.toList.take 120).asString) ++ "…"
  else if thought = "" then "—"
  else thought

/-- The catch-all `except Exception` handler (lines 1204-1245): stop
running, set the session status to `error` FIRST, then insert an
`audit_log` row with step number 0 and a fixed thought/action pair;
the feedback is the stringified exception (the appended traceback text
is opaque to the model) capped at 8192 characters. -/
def catchAll (s : AppState) (msg : String) : AppState :=
  let fb := if msg.length > 8192 then (msg.toList.take 8192).asString else msg
  { s with is_running := false
         , db := s.db ++ [DbOp.setStatus "error",
             DbOp.insertRec
               { step_number := 0
                 thought := "Task failed before or during first step."
                 code := none
                 action := "Task initialization failed"
                 feedback := some fb
                 status := "error"
                 outcome := "Fail"
                 shot_before := s.current_shot_before
                 shot_after := none
                 ver_achieved := none
                 ver_reason := none }] }

/-- Everything from the successful `verify_step` outcome to the end of
the rerun (lines 1140-1203): the checkpoint validation screenshot (no
state effect), the normal `audit_log` insert, the history append, and
the status transition — whose budget comparison uses `max_steps`, the
LOCAL variable captured at line 981 before any step-1 budget revision,
passed here as `maxLocal`. -/
def normalFinish (s : AppState) (d : Decision) (code : String)
    (beforePath afterPath : String) (va vr : Option String)
    (maxLocal : Nat) : AppState :=
  let rec0 : AuditRec :=
    { step_number := s.step_number
      thought := d.thought
      code := some code
      action := actionSummary d.thought
      feedback := none
      status := d.status
      outcome := "Pass"
      shot_before := some beforePath
      shot_after := some afterPath
      ver_achieved := va
      ver_reason := vr }
  let h0 : HistRec :=
    { step_number := s.step_number, thought := d.thought,
      code := code, status := d.status, outcome := "Pass" }
  let s3 :=
    { s with db := s.db ++ [DbOp.insertRec rec0]
           , history := s.history ++ [h0]
           , latest_screenshot := some afterPath }
  if d.status = "SUCCESS" then
    { s3 with step_number := maxLocal + 1, is_running := false,
              db := s3.db ++ [DbOp.setStatus "success"] }
  else if d.status = "LOST" then
    { s3 with step_number := maxLocal + 1, is_running := false,
              db := s3.db ++ [DbOp.setStatus "stuck"] }
  else
    let s4 := { s3 with step_number := s3.step_number + 1 }
    if s4.step_number > maxLocal then
      { s4 with is_running := false, db := s4.db ++ [DbOp.setStatus "lost"] }
    else s4

/-- Lines 1047-1203: everything from building `code_to_run` onward —
execution, after-screenshot, per-step verification, checkpoint
snapshot, the normal persist, and the status transition.  `s1` is the
state after the step-1 budget revision; `maxLocal` is the local
`max_steps` variable of line 981 (captured before the revision). -/
def stepExec (e : StepEnv) (s1 : AppState) (d : Decision) (code beforePath : String)
    (maxLocal : Nat) : AppState :=
  let ctr := codeToRun code
  let afterPath :=
    if e.capture_after_ok then shotPath s1.session_id s1.step_number "after"
    else "screenshot_failed"
  match e.exec_fault with
  | some msg =>
    -- lines 1064-1094: execution fault; after-screenshot for audit,
    -- 10-column insert, then status error, stop, no retry
    { s1 with executed := s1.executed ++ [ctr]
            , is_running := false
            , db := s1.db ++
                [DbOp.insertRec
                   { step_number := s1.step_number
                     thought := d.thought
                     code := some code
                     action := "Step failed (no retry)"
                     feedback := some msg
                     status := d.status
                     outcome := "Fail"
                     shot_before := some beforePath
                     shot_after := some afterPath
                     ver_achieved := none
                     ver_reason := none },
                 DbOp.setStatus "error"] }
  | none =>
    let s2 := { s1 with executed := s1.executed ++ [ctr] }
    -- lines 1101-1138: per-step verification
    match e.verify with
    | .raised m => catchAll s2 m
    | .absent => normalFinish s2 d code beforePath afterPath none none maxLocal
    | .result r =>
      let va := some (pyBoolStr r.achieved)
      let vr := some r.reason
      if !r.achieved then
        { s2 with is_running := false
                , db := s2.db ++
                    [DbOp.insertRec
                       { step_number := s2.step_number
                         thought := d.thought
                         code := some code
                         action := actionSummary d.thought
                         feedback := some ("Step verification: " ++ r.reason)
                         status := d.status
                         outcome := "Fail"
                         shot_before := some beforePath
                         shot_after := some afterPath
                         ver_achieved := va
                         ver_reason := vr },
                     DbOp.setStatus "error"] }
      else normalFinish s2 d code beforePath afterPath va vr maxLocal

/-- Lines 1031-1037: the translation fallback, used when the decision's
code is blank or the no-op and the thought is non-blank — the
rule-based translator first, the translate-only API call second,
keeping the original code when both fail. -/
def translatedCode (e : StepEnv) (d : Decision) : String :=
  if (pyStrip d.code = "" || pyStrip d.code = "pass") && pyStrip d.thought ≠ "" then
    let t1 := translate_task_to_code e.rules d.thought e.user_env
    let t2 := if optTruthy t1 then t1 else e.api_translate
    match t2 with
    | some t => if t ≠ "" then t else d.code
    | none => d.code
  else d.code

/-- Lines 1039-1045: on step 1 only, adopt a positive declared plan
length as the new budget (`max(2, n)`) and a non-empty checkpoint list
verbatim. -/
def reviseBudget (s : AppState) (d : Decision) : AppState :=
  if s.step_number = 1 then
    let sA := match d.total_steps with
      | some n =>
        if 1 ≤ n then
          { s with planned_total_steps := some n, max_steps := (max 2 n).toNat }
        else s
      | none => s
    if !d.checkpoints.isEmpty then { sA with checkpoints := d.checkpoints } else sA
  else s

/-- The body of one rerun's step (lines 995-1245), entered when the
guard of line 994 holds. -/
def stepBody (e : StepEnv) (s : AppState) : AppState :=
  let maxLocal := s.max_steps
  let beforePath := shotPath s.session_id s.step_number "before"
  if !e.capture_before_ok then
    -- lines 1002-1008: capture fault; no audit row is inserted
    { s with is_running := false, db := s.db ++ [DbOp.setStatus "error"] }
  else
    let s := { s with current_shot_before := some beforePath }
    match analyzeResult e s.history with
    | .error m => catchAll s m
    | .ok d =>
      let code := translatedCode e d
      let s1 := reviseBudget s d
      stepExec e s1 d code beforePath maxLocal

/-- One rerun of the script: the loop body runs only under the guard of
line 994 (`is_running and session_id and step_n <= max_steps`; the
session id is always non-empty once a session exists). -/
def runStep (e : StepEnv) (s : AppState) : AppState :=
  if s.is_running && s.step_number ≤ s.max_steps then stepBody e s else s

/-- A whole run: fold the per-rerun oracles over the initial state. -/
def runLoop (envs : List StepEnv) (s : AppState) : AppState :=
  envs.foldl (fun st e => runStep e st) s

/-! ## Completion phase (`src/app.py` lines 1247-1302) -/

/-- `generate_refined_prompt` (lines 606-637): scan the session's
`audit_log` rows whose feedback contains `Error` or whose outcome is
`Fail`, build one `- Avoided:` note per row from its `action` and
`feedback` columns (a SQL `NULL` feedback prints as Python `None`),
and embed the notes in the fixed template. -/
def generate_refined_prompt (s : AppState) : String :=
  let failed := s.db.filterMap (fun op => match op with
    | .insertRec r =>
      if (match r.feedback with
          | some f => strIn "Error" f
          | none => false) || r.outcome = "Fail" then
        some (r.action, r.feedback)
      else none
    | _ => none)
  let notes :=
    if failed.isEmpty then "No errors encountered."
    else
      String.intercalate "\n" (failed.map (fun af =>
        "- Avoided: " ++ af.1 ++ " because " ++ (match af.2 with
          | some f => f
          | none => "None")))
  "OPTIMIZED PROMPT FOR '" ++ s.goal ++ "':\nAlways do X. " ++ notes ++
    "\n\nOriginal Goal: " ++ s.goal

/-- The completion / self-improvement block (lines 1247-1298), run on a
rerun in which the loop body did not fire.  `validationEnv` is what
`validate_goal_achieved` would return if called (the call is made at
most once per session and only when the session status is `success` and
a final screenshot exists).  The block reads the session, may call the
goal validation, renders the refined prompt, and inserts a post-mortem
row if none exists — it contains no `UPDATE sessions` statement. -/
def completionPhase (s : AppState) (validationEnv : Option VerifResult) : AppState :=
  let max_s := s.max_steps
  let done := s.is_running && (s.step_number > max_s || s.step_number = max_s + 1)
  if done then
    let status := sessionStatus s.db
    let validation :=
      if status = "success" && s.latest_screenshot.isSome then validationEnv else none
    let refined := generate_refined_prompt s
    let pmExists := s.db.any (fun op => match op with
      | .insertPM _ _ _ _ _ => true
      | _ => false)
    if pmExists then s
    else
      { s with db := s.db ++
          [DbOp.insertPM s.goal refined "Demo completion"
            (validation.map (fun v => pyBoolStr v.achieved))
            (validation.map (fun v => v.reason))] }
  else s

/-! ## Helper lemmas -/

theorem sessionStatus_append_insert (db : List DbOp) (r : AuditRec) :
    sessionStatus (db ++ [DbOp.insertRec r]) = sessionStatus db := by
  simp [sessionStatus, List.foldl_append]

theorem sessionStatus_append_set (db : List DbOp) (x : String) :
    sessionStatus (db ++ [DbOp.setStatus x]) = x := by
  simp [sessionStatus, List.foldl_append]

theorem sessionStatus_append_insert_set (db : List DbOp) (r : AuditRec) (x : String) :
    sessionStatus (db ++ [DbOp.insertRec r, DbOp.setStatus x]) = x := by
  simp [sessionStatus, List.foldl_append]

theorem sessionStatus_append_pm (db : List DbOp) (a b c : String)
    (d e : Option String) :
    sessionStatus (db ++ [DbOp.insertPM a b c d e]) = sessionStatus db := by
  simp [sessionStatus, List.foldl_append]

theorem recordSteps_append (db ops : List DbOp) :
    recordSteps (db ++ ops) = recordSteps db ++ recordSteps ops := by
  simp [recordSteps, List.filterMap_append]

/-! ## Claim C2 -/

/-- Claim C2 (code bug): for the description `"type 3+3 and press
enter"` the rule-based translator does emit a type-then-enter
instruction via the quoted/bare capture of built-in rule 2, but the
greedy capture group swallows the whole trailing text, so the payload
typed is `"3+3 and press enter"` — not the bare `"3+3"` that the claim
(and the comment at `src/task_translator.py` line 81) promises. -/
theorem c2_type_enter_payload :
    translate_task_to_code [] "type 3+3 and press enter" "" =
      some "import pyautogui; pyautogui.write('3+3 and press enter'); pyautogui.press('enter')" ∧
    translate_task_to_code [] "type 3+3 and press enter" "" ≠
      some "import pyautogui; pyautogui.write('3+3'); pyautogui.press('enter')" := by
  exact ⟨rfl, by decide⟩

/-! ## Claim C1 -/

/-- Claim C6 (amended): in a successfully parsed decision, a missing
(or falsy) `thought` falls back to the `reasoning` field when that is
truthy and only then to the fixed placeholder `"No thought."`; a
missing or empty-string instruction defaults to the no-op `"pass"`
(a whitespace-only instruction is truthy and kept verbatim); the
status is strip-and-upper normalized and every value outside
{CONTINUE, SUCCESS, LOST} is coerced to CONTINUE. -/
theorem c6_defaults_amended (fs : List (String × JVal)) (b : Bool) (raw : String)
    (d : ParsedDecision) (h : fillDecision fs b raw = .ok d) :
    (jTruthy (objGet fs "thought") = false → jTruthy (objGet fs "reasoning") = false →
      d.thought = JVal.str "No thought.") ∧
    (jTruthy (objGet fs "thought") = false → jTruthy (objGet fs "reasoning") = true →
      d.thought = objGet fs "reasoning") ∧
    (jTruthy (objGet fs "code") = false → d.code = JVal.str "pass") ∧
    (d.status = "CONTINUE" ∨ d.status = "SUCCESS" ∨ d.status = "LOST") ∧
    (∀ s, objGet fs "status" = JVal.str s → s ≠ "" →
      d.status = (if pyUpper (pyStrip s) = "CONTINUE" || pyUpper (pyStrip s) = "SUCCESS" ||
          pyUpper (pyStrip s) = "LOST" then pyUpper (pyStrip s) else "CONTINUE")) := by
  unfold fillDecision at h
  split at h
  case _ t heq =>
    have hd : d.thought = pyOr (objGet fs "thought")
          (pyOr (objGet fs "reasoning") (JVal.str "No thought.")) ∧
        d.code = pyOr (objGet fs "code") (JVal.str "pass") ∧
        d.status = (if pyUpper (pyStrip t) = "CONTINUE" || pyUpper (pyStrip t) = "SUCCESS" ||
            pyUpper (pyStrip t) = "LOST" then pyUpper (pyStrip t) else "CONTINUE") := by
      split at h
      · cases h1 : totalStepsField fs with
        | error e => rw [h1] at h; exact absurd h (by simp)
        | ok ts =>
          rw [h1] at h
          cases h2 : checkpointsField fs with
          | error e => rw [h2] at h; exact absurd h (by simp)
          | ok cps =>
            rw [h2] at h
            injection h with h
            subst h
            exact ⟨rfl, rfl, rfl⟩
      · injection h with h
        subst h
        exact ⟨rfl, rfl, rfl⟩
    obtain ⟨hth, hco, hst⟩ := hd
    refine ⟨?_, ?_, ?_, ?_, ?_⟩
    · intro h1 h2
      rw [hth]
      simp [pyOr, h1, h2]
    · intro h1 h2
      rw [hth]
      simp [pyOr, h1, h2]
    · intro h1
      rw [hco]
      simp [pyOr, h1]
    · rw [hst]
      split
      case _ hc =>
        rcases Bool.or_eq_true_iff.mp hc with hc' | hc'
        · rcases Bool.or_eq_true_iff.mp hc' with hc'' | hc''
          · exact Or.inl (by simpa using hc'')
          · exact Or.inr (Or.inl (by simpa using hc''))
        · exact Or.inr (Or.inr (by simpa using hc'))
      case _ => exact Or.inl rfl
    · intro s hs hne
      rw [hs] at heq
      have hpy : pyOr (JVal.str s) (JVal.str "CONTINUE") = JVal.str s := by
        simp [pyOr, jTruthy, hne]
      rw [hpy] at heq
      injection heq with heq
      subst heq
      rw [hst]
  case _ =>
    simp at h

/-- Claim C6, counterexample: for the reply
`{"reasoning": "use spotlight", "code": " "}` the `thought` key is
missing yet the decision's thought is the `reasoning` text, not the
fixed placeholder, and the instruction is blank (whitespace-only) yet
it is kept verbatim rather than defaulting to the no-op. -/
theorem c6_counterexample :
    ∃ d, parseMinimaxReply "\x7b\"reasoning\": \"use spotlight\", \"code\": \" \"\x7d" false =
        .ok (some d) ∧
      d.thought ≠ JVal.str "No thought." ∧ d.code ≠ JVal.str "pass" := by
  refine ⟨{ thought := JVal.str "use spotlight", code := JVal.str " ",
            status := "CONTINUE", total_steps := none, checkpoints := [],
            raw := "\x7b\"reasoning\": \"use spotlight\", \"code\": \" \"\x7d" }, rfl, ?_, ?_⟩
  · intro hcase
    injection hcase with hcase
    exact absurd hcase (by decide)
  · intro hcase
    injection hcase with hcase
    exact absurd hcase (by decide)

/-- Claim C6, witness for the amended theorem: the reply object
`{"status": " success ", "code": ""}` fills to the placeholder
thought, the no-op instruction, and the normalized status SUCCESS. -/
theorem c6_witness :
    ∃ d, fillDecision [("status", JVal.str " success "), ("code", JVal.str "")] true "r" =
        .ok d ∧
      d.thought = JVal.str "No thought." ∧ d.code = JVal.str "pass" ∧
      d.status = "SUCCESS" := by
  have hc := c6_defaults_amended
    [("status", JVal.str " success "), ("code", JVal.str "")] true "r" _ rfl
  refine ⟨_, rfl, ?_, ?_, ?_⟩
  · exact hc.1 rfl rfl
  · exact hc.2.2.1 rfl
  · exact (hc.2.2.2.2 " success " rfl (by decide)).trans rfl

/-! ## Claim C9 -/

theorem applyFileRules_skip (u : Bool) (m text : String) (rl : Rule) (rs : List Rule)
    (hm : ruleMatches rl text = false) :
    applyFileRules u m text (rl :: rs) = applyFileRules u m text rs := by
  conv_lhs => unfold applyFileRules
  split
  · rfl
  · rw [hm]
    simp

theorem applyFileRules_hit (u : Bool) (m text : String) (r : Rule) (rs : List Rule)
    (hc : optTruthy r.code = true)
    (hm : ruleMatches r text = true) :
    applyFileRules u m text (r :: rs) =
      some (pyStrip (pyReplace
        (if u && optTruthy r.code_macos then r.code_macos.getD "" else r.code.getD "")
        "{modifier}" m)) := by
  obtain ⟨c, hc1, hc2⟩ : ∃ c, r.code = some c ∧ c ≠ "" := by
    cases hcode : r.code with
    | none => rw [hcode] at hc; simp [optTruthy] at hc
    | some c =>
      rw [hcode] at hc
      simp only [optTruthy, decide_eq_true_eq] at hc
      exact ⟨c, rfl, hc⟩
  conv_lhs => unfold applyFileRules
  rw [hc]
  simp only [Bool.not_true, Bool.false_and, Bool.false_eq_true, if_false, hm, if_true]
  unfold ruleFill
  cases u with
  | false =>
    simp only [Bool.false_and, Bool.false_eq_true, if_false, hc1, Option.getD_some]
    rw [if_pos hc2]
  | true =>
    cases hmac : optTruthy r.code_macos with
    | false =>
      simp only [hmac, Bool.and_false, Bool.false_eq_true, if_false, hc1,
        Option.getD_some, if_true, Bool.and_true]
      rw [if_pos hc2]
    | true =>
      obtain ⟨cm, hm1, hm2⟩ : ∃ cm, r.code_macos = some cm ∧ cm ≠ "" := by
        cases hmm : r.code_macos with
        | none => rw [hmm] at hmac; simp [optTruthy] at hmac
        | some cm =>
          rw [hmm] at hmac
          simp only [optTruthy, decide_eq_true_eq] at hmac
          exact ⟨cm, rfl, hmac⟩
      simp only [hmac, Bool.and_true, if_true, hm1, Option.getD_some]
      rw [if_pos hm2]

/-- Claim C9 (confirmed): rule matching is first-match-wins.  For rules
of the shape the data model prescribes (a non-empty default instruction
template, an optional non-empty platform variant), if no rule before
`r` matches the lowercased description and some pattern of `r` does,
the translator returns `r`'s instruction — the platform-specific one
when it exists and the environment context names that platform, else
the default — with the `{modifier}` placeholder replaced by `command`
on macOS/Darwin and `win` otherwise, never consulting any later rule or
built-in pattern. -/
theorem c9_first_match_wins (pre post : List Rule) (r : Rule)
    (thought user_env : String)
    (hwf : ∀ rl ∈ pre ++ r :: post, optTruthy rl.code = true ∧ rl.code_macos ≠ some "")
    (hts : pyStrip thought ≠ "")
    (hpre : ∀ rl ∈ pre, ruleMatches rl (pyLower (pyStrip thought)) = false)
    (hr : ruleMatches r (pyLower (pyStrip thought)) = true) :
    translate_task_to_code (pre ++ r :: post) thought user_env =
      some (pyStrip (pyReplace
        (if is_macos user_env && optTruthy r.code_macos then r.code_macos.getD ""
         else r.code.getD "")
        "{modifier}" (modifier_key user_env))) := by
  have hfile : applyFileRules (is_macos user_env) (modifier_key user_env)
      (pyLower (pyStrip thought)) (pre ++ r :: post) =
      some (pyStrip (pyReplace
        (if is_macos user_env && optTruthy r.code_macos then r.code_macos.getD ""
         else r.code.getD "")
        "{modifier}" (modifier_key user_env))) := by
    induction pre with
    | nil =>
      have h := hwf r (by simp)
      exact applyFileRules_hit _ _ _ r post h.1 hr
    | cons rl pre' ih =>
      rw [List.cons_append, applyFileRules_skip _ _ _ rl _ (hpre rl (by simp))]
      exact ih (fun rl' h' => hwf rl' (by simp at h' ⊢; tauto))
        (fun rl' h' => hpre rl' (List.mem_cons_of_mem _ h'))
  unfold translate_task_to_code
  rw [if_neg hts]
  simp only [hfile]

/-- Claim C9, witness: a two-rule file in which only the second rule
matches; on macOS the platform variant is selected and filled. -/
theorem c9_witness :
    translate_task_to_code
      [{ patterns := ["scroll down"], code := some "pyautogui.scroll(-300)",
         code_macos := none },
       { patterns := ["open mail"], code := some "pyautogui.hotkey('{modifier}', 'm')",
         code_macos := some "pyautogui.hotkey('command', 'space'); pyautogui.write('Mail')" }]
      "Open Mail app" "macOS 14.2.1; arm64" =
      some "pyautogui.hotkey('command', 'space'); pyautogui.write('Mail')" := by
  have h := c9_first_match_wins
    [{ patterns := ["scroll down"], code := some "pyautogui.scroll(-300)",
       code_macos := none }] []
    { patterns := ["open mail"], code := some "pyautogui.hotkey('{modifier}', 'm')",
      code_macos := some "pyautogui.hotkey('command', 'space'); pyautogui.write('Mail')" }
    "Open Mail app" "macOS 14.2.1; arm64"
    (by decide) (by decide) (by decide) (by decide)
  exact h.trans rfl

/-! ## Claim C5 -/

theorem catchAll_max_steps (s : AppState) (m : String) :
    (catchAll s m).max_steps = s.max_steps := rfl

theorem normalFinish_max_steps (s : AppState) (d : Decision) (code bp ap : String)
    (va vr : Option String) (ml : Nat) :
    (normalFinish s d code bp ap va vr ml).max_steps = s.max_steps := by
  unfold normalFinish
  dsimp only
  split
  · rfl
  · split
    · rfl
    · split <;> rfl

theorem stepExec_max_steps (e : StepEnv) (s1 : AppState) (d : Decision)
    (code bp : String) (ml : Nat) :
    (stepExec e s1 d code bp ml).max_steps = s1.max_steps := by
  unfold stepExec
  dsimp only
  split
  · rfl
  · split
    · rw [catchAll_max_steps]
    · rw [normalFinish_max_steps]
    · split
      · rfl
      · rw [normalFinish_max_steps]

theorem reviseBudget_max_steps (s : AppState) (d : Decision) :
    (reviseBudget s d).max_steps =
      if s.step_number = 1 then
        match d.total_steps with
        | some n => if 1 ≤ n then (max 2 n).toNat else s.max_steps
        | none => s.max_steps
      else s.max_steps := by
  unfold reviseBudget
  by_cases h1 : s.step_number = 1
  · simp only [h1, if_true]
    cases hts : d.total_steps with
    | none => dsimp only; split <;> rfl
    | some n =>
      by_cases hn : 1 ≤ n <;>
        simp only [hts, hn, if_true, if_false] <;> split <;> rfl
  · simp only [h1, if_false]

/-- How one rerun changes the session's step budget
(`st.session_state.max_steps`): it is replaced — by `max(2, n)` for the
decision's positive declared plan length `n` — exactly on a step-1
rerun that got past the capture and obtained a decision; every other
path leaves it unchanged. -/
theorem runStep_max_steps (e : StepEnv) (s : AppState) :
    (runStep e s).max_steps =
      if s.is_running && s.step_number ≤ s.max_steps then
        (if e.capture_before_ok = true ∧ s.step_number = 1 then
          match analyzeResult e s.history with
          | .ok d =>
            match d.total_steps with
            | some n => if 1 ≤ n then (max 2 n).toNat else s.max_steps
            | none => s.max_steps
          | .error _ => s.max_steps
        else s.max_steps)
      else s.max_steps := by
  unfold runStep
  split
  case isTrue hg =>
    unfold stepBody
    cases hcap : e.capture_before_ok with
    | false => simp [hcap]
    | true =>
      simp only [hcap, Bool.not_true, Bool.false_eq_true, if_false, true_and]
      try dsimp only
      cases ha : analyzeResult e s.history with
      | error m =>
        simp only [ha, catchAll_max_steps]
        split <;> rfl
      | ok d =>
        simp only [ha, stepExec_max_steps, reviseBudget_max_steps]
  case isFalse hg => rfl

/-- Claim C5 (confirmed): on step 1 of a session only, a decision
carrying a positive planned step count `n` replaces the session's step
budget by `max(2, n)`, overriding the budget chosen at session start; a
decision whose count is absent (the parse stage turns a non-parseable
count into none) or non-positive leaves the budget unchanged; and on
any later step the budget is never modified, whatever the oracle
does. -/
theorem c5_budget_revision (e : StepEnv) (s : AppState) :
    (s.step_number ≠ 1 → (runStep e s).max_steps = s.max_steps) ∧
    (∀ d, analyzeResult e s.history = .ok d →
      (d.total_steps = none → (runStep e s).max_steps = s.max_steps) ∧
      (∀ n, d.total_steps = some n → n < 1 → (runStep e s).max_steps = s.max_steps) ∧
      (∀ n, d.total_steps = some n → 1 ≤ n → s.step_number = 1 →
        s.is_running = true → s.step_number ≤ s.max_steps →
        e.capture_before_ok = true →
        (runStep e s).max_steps = (max 2 n).toNat)) := by
  rw [runStep_max_steps]
  constructor
  · intro h1
    split
    · rw [if_neg (by intro hc; exact h1 hc.2)]
    · rfl
  · intro d hd
    refine ⟨?_, ?_, ?_⟩
    · intro hts
      split
      · split
        · rw [hd]
          simp only [hts]
        · rfl
      · rfl
    · intro n hts hn
      split
      · split
        · rw [hd]
          simp only [hts]
          rw [if_neg (by omega)]
        · rfl
      · rfl
    · intro n hts hn h1 hrun hle hcap
      rw [if_pos (by simp [hrun, hle]), if_pos ⟨hcap, h1⟩, hd]
      simp only [hts]
      rw [if_pos hn]

/-- Claim C5, witness: a live-API step-1 decision declaring a 7-step
plan raises the budget of a 10-step session to 7; the same decision
declaring 1 step floors it at 2. -/
theorem c5_witness :
    (runStep
      { capture_before_ok := true
        api := .decided { thought := "t", code := "c", status := "CONTINUE",
                          total_steps := some 7, checkpoints := [] }
        rules := [], api_translate := none, exec_fault := none,
        capture_after_ok := true, verify := .absent, user_env := "" }
      (initState "sid" "goal" 10)).max_steps = 7 := by
  have h := (c5_budget_revision
    { capture_before_ok := true
      api := .decided { thought := "t", code := "c", status := "CONTINUE",
                        total_steps := some 7, checkpoints := [] }
      rules := [], api_translate := none, exec_fault := none,
      capture_after_ok := true, verify := .absent, user_env := "" }
    (initState "sid" "goal" 10)).2
    { thought := "t", code := "c", status := "CONTINUE",
      total_steps := some 7, checkpoints := [] } rfl
  exact (h.2.2 7 rfl (by decide) rfl rfl (by decide) rfl).trans (by decide)

/-! ## Claim C4 -/

theorem reviseBudget_frame (s : AppState) (p : Option String) (d : Decision) :
    (reviseBudget { s with current_shot_before := p } d).session_id = s.session_id ∧
    (reviseBudget { s with current_shot_before := p } d).step_number = s.step_number ∧
    (reviseBudget { s with current_shot_before := p } d).is_running = s.is_running ∧
    (reviseBudget { s with current_shot_before := p } d).history = s.history ∧
    (reviseBudget { s with current_shot_before := p } d).executed = s.executed ∧
    (reviseBudget { s with current_shot_before := p } d).db = s.db := by
  unfold reviseBudget
  repeat' split
  all_goals exact ⟨rfl, rfl, rfl, rfl, rfl, rfl⟩

theorem normalFinish_continue (s : AppState) (d : Decision) (code bp ap : String)
    (va vr : Option String) (ml : Nat)
    (h1 : d.status ≠ "SUCCESS") (h2 : d.status ≠ "LOST") :
    (normalFinish s d code bp ap va vr ml).step_number = s.step_number + 1 ∧
    (s.step_number + 1 > ml →
      (normalFinish s d code bp ap va vr ml).is_running = false ∧
      sessionStatus (normalFinish s d code bp ap va vr ml).db = "lost") ∧
    (¬ (s.step_number + 1 > ml) →
      (normalFinish s d code bp ap va vr ml).is_running = s.is_running ∧
      sessionStatus (normalFinish s d code bp ap va vr ml).db = sessionStatus s.db) := by
  unfold normalFinish
  rw [if_neg h1, if_neg h2]
  dsimp only
  refine ⟨by split <;> rfl, ?_, ?_⟩
  · intro hov
    rw [if_pos hov]
    exact ⟨rfl, sessionStatus_append_set _ _⟩
  · intro hov
    rw [if_neg hov]
    exact ⟨rfl, sessionStatus_append_insert _ _⟩

theorem stepExec_continue (e : StepEnv) (s1 : AppState) (d : Decision)
    (code bp : String) (ml : Nat)
    (hexec : e.exec_fault = none)
    (hver : e.verify = .absent ∨ ∃ r, e.verify = .result r ∧ r.achieved = true)
    (h1 : d.status ≠ "SUCCESS") (h2 : d.status ≠ "LOST") :
    (stepExec e s1 d code bp ml).step_number = s1.step_number + 1 ∧
    (s1.step_number + 1 > ml →
      (stepExec e s1 d code bp ml).is_running = false ∧
      sessionStatus (stepExec e s1 d code bp ml).db = "lost") ∧
    (¬ (s1.step_number + 1 > ml) →
      (stepExec e s1 d code bp ml).is_running = s1.is_running ∧
      sessionStatus (stepExec e s1 d code bp ml).db = sessionStatus s1.db) := by
  unfold stepExec
  rw [hexec]
  dsimp only
  rcases hver with hv | ⟨r, hv, hr⟩
  · rw [hv]
    exact normalFinish_continue _ d code bp _ none none ml h1 h2
  · rw [hv]
    dsimp only
    rw [hr]
    exact normalFinish_continue _ d code bp _ _ _ ml h1 h2

/-- Claim C4 (amended): when the decision status is `CONTINUE`, the
step number always advances by exactly 1; the budget comparison,
however, is made against the local `max_steps` captured at the start of
the rerun (line 981) — i.e. the budget in effect when the step began,
which on step 1 is the pre-revision budget.  When the step number is
strictly below that budget the session stays running (no status write);
when it equals that budget the session transitions to the terminal
state `lost`, never back to running. -/
theorem c4_continue_transition (e : StepEnv) (s : AppState) (d : Decision)
    (hrun : s.is_running = true) (hle : s.step_number ≤ s.max_steps)
    (hcap : e.capture_before_ok = true)
    (hd : analyzeResult e s.history = .ok d) (hst : d.status = "CONTINUE")
    (hexec : e.exec_fault = none)
    (hver : e.verify = .absent ∨ ∃ r, e.verify = .result r ∧ r.achieved = true) :
    (runStep e s).step_number = s.step_number + 1 ∧
    (s.step_number < s.max_steps →
      (runStep e s).is_running = true ∧
      sessionStatus (runStep e s).db = sessionStatus s.db) ∧
    (s.step_number = s.max_steps →
      (runStep e s).is_running = false ∧
      sessionStatus (runStep e s).db = "lost") := by
  have hCont1 : d.status ≠ "SUCCESS" := by rw [hst]; decide
  have hCont2 : d.status ≠ "LOST" := by rw [hst]; decide
  unfold runStep
  rw [if_pos (by simp [hrun, hle])]
  unfold stepBody
  simp only [hcap, Bool.not_true, Bool.false_eq_true, if_false]
  rw [hd]
  dsimp only
  have hx := stepExec_continue e (reviseBudget { s with current_shot_before := some (shotPath s.session_id s.step_number "before") } d) d (translatedCode e d) (shotPath s.session_id s.step_number "before") s.max_steps hexec hver hCont1 hCont2
  obtain ⟨hf1, hf2, hf3, hf4, hf5, hf6⟩ := reviseBudget_frame s (some (shotPath s.session_id s.step_number "before")) d
  rw [hf2, hf3, hf6] at hx
  refine ⟨hx.1, ?_, ?_⟩
  · intro hlt
    have h3 := hx.2.2 (by omega)
    exact ⟨h3.1.trans hrun, h3.2⟩
  · intro heq
    exact hx.2.1 (by omega)

/-- The oracle of an offline (stub-mode) rerun in which every
collaborator behaves: capture works, the API is unavailable (so the
stub decision is used), no rule file, execution succeeds, verification
is skipped. -/
def demoEnv : StepEnv :=
  { capture_before_ok := true
    api := .unavailable
    rules := []
    api_translate := none
    exec_fault := none
    capture_after_ok := true
    verify := .absent
    user_env := "" }

/-- Claim C4, counterexample: a session started with budget 1 whose
step-1 stub decision is `CONTINUE` with a declared 3-step plan.  The
budget is revised to 3, so step 1 is strictly within the (revised)
budget — yet the session transitions to `lost`, because line 1196
compares against the stale local `max_steps` captured before the
revision. -/
theorem c4_counterexample :
    (runStep demoEnv (initState "sid" "goal" 1)).max_steps = 3 ∧
    (initState "sid" "goal" 1).step_number <
      (runStep demoEnv (initState "sid" "goal" 1)).max_steps ∧
    sessionStatus (runStep demoEnv (initState "sid" "goal" 1)).db = "lost" ∧
    (runStep demoEnv (initState "sid" "goal" 1)).is_running = false := by
  exact ⟨rfl, by decide, rfl, rfl⟩

/-- Claim C4, witness for the amended theorem: with budget 5, the
step-1 `CONTINUE` decision advances the session to step 2, still
running, status untouched. -/
theorem c4_witness :
    (runStep demoEnv (initState "sid" "goal" 5)).step_number = 2 ∧
    (runStep demoEnv (initState "sid" "goal" 5)).is_running = true ∧
    sessionStatus (runStep demoEnv (initState "sid" "goal" 5)).db = "running" := by
  have h := c4_continue_transition demoEnv (initState "sid" "goal" 5)
    (stubDecision 1) rfl (by decide) rfl rfl rfl rfl (Or.inl rfl)
  refine ⟨h.1, ?_, ?_⟩
  · exact (h.2.1 (by decide)).1
  · exact (h.2.1 (by decide)).2.trans rfl

/-! ## Claim C7 -/

/-- The `audit_log` row the normal path inserts, and the status write
that may follow it, isolated from the pre-existing rows. -/
theorem normalFinish_drop (s : AppState) (d : Decision) (code bp ap : String)
    (va vr : Option String) (ml : Nat) :
    (normalFinish s d code bp ap va vr ml).db.drop s.db.length =
      DbOp.insertRec
        { step_number := s.step_number
          thought := d.thought
          code := some code
          action := actionSummary d.thought
          feedback := none
          status := d.status
          outcome := "Pass"
          shot_before := some bp
          shot_after := some ap
          ver_achieved := va
          ver_reason := vr } ::
      (if d.status = "SUCCESS" then [DbOp.setStatus "success"]
       else if d.status = "LOST" then [DbOp.setStatus "stuck"]
       else if s.step_number + 1 > ml then [DbOp.setStatus "lost"] else []) := by
  unfold normalFinish
  dsimp only
  split
  case isTrue h =>
    rw [List.append_assoc, List.drop_left]
    rfl
  case isFalse h =>
    split
    case isTrue h2 =>
      rw [List.append_assoc, List.drop_left]
      rfl
    case isFalse h2 =>
      split
      case isTrue h3 =>
        rw [List.append_assoc, List.drop_left]
        rfl
      case isFalse h3 =>
        rw [List.drop_left]

theorem normalFinish_is_running_of (s : AppState) (d : Decision) (code bp ap : String)
    (va vr : Option String) (ml : Nat) :
    (normalFinish s d code bp ap va vr ml).is_running = false ∨
    (normalFinish s d code bp ap va vr ml).is_running = s.is_running := by
  unfold normalFinish
  dsimp only
  split
  · exact Or.inl rfl
  split
  · exact Or.inl rfl
  split
  · exact Or.inl rfl
  · exact Or.inr rfl

/-- The three verification outcomes seen from the execution kernel:
no `error` write and a `Pass` row with empty verification columns when
the verifier is absent; no `error` write on `achieved: true`; the
`Fail` row plus `error` status on `achieved: false`. -/
theorem stepExec_verify (e : StepEnv) (s1 : AppState) (d : Decision)
    (code bp : String) (ml : Nat) (hexec : e.exec_fault = none) :
    (e.verify = .absent →
      DbOp.setStatus "error" ∉ (stepExec e s1 d code bp ml).db.drop s1.db.length ∧
      ∀ r, DbOp.insertRec r ∈ (stepExec e s1 d code bp ml).db.drop s1.db.length →
        r.outcome = "Pass" ∧ r.ver_achieved = none ∧ r.ver_reason = none) ∧
    (∀ v, e.verify = .result v → v.achieved = true →
      DbOp.setStatus "error" ∉ (stepExec e s1 d code bp ml).db.drop s1.db.length) ∧
    (∀ v, e.verify = .result v → v.achieved = false →
      (stepExec e s1 d code bp ml).is_running = false ∧
      sessionStatus (stepExec e s1 d code bp ml).db = "error" ∧
      ∃ rec, (stepExec e s1 d code bp ml).db.drop s1.db.length =
          [DbOp.insertRec rec, DbOp.setStatus "error"] ∧
        rec.outcome = "Fail" ∧
        rec.feedback = some ("Step verification: " ++ v.reason) ∧
        rec.step_number = s1.step_number ∧
        rec.ver_achieved = some "False" ∧ rec.ver_reason = some v.reason) := by
  unfold stepExec
  rw [hexec]
  dsimp only
  refine ⟨?_, ?_, ?_⟩
  · intro hv
    rw [hv]
    dsimp only
    have hdb : s1.db = ({ s1 with executed := s1.executed ++ [codeToRun code] } : AppState).db := rfl
    rw [hdb, normalFinish_drop]
    constructor
    · intro hmem
      rcases List.mem_cons.mp hmem with h | h
      · cases h
      · split at h
        · simp at h
        · split at h
          · simp at h
          · split at h
            · simp at h
            · simp at h
    · intro r hmem
      rcases List.mem_cons.mp hmem with h | h
      · cases h
        exact ⟨rfl, rfl, rfl⟩
      · split at h
        · simp at h
        · split at h
          · simp at h
          · split at h
            · simp at h
            · simp at h
  · intro v hv hach
    rw [hv]
    dsimp only
    simp only [hach, Bool.not_true, Bool.false_eq_true, if_false]
    have hdb : s1.db = ({ s1 with executed := s1.executed ++ [codeToRun code] } : AppState).db := rfl
    rw [hdb, normalFinish_drop]
    intro hmem
    rcases List.mem_cons.mp hmem with h | h
    · cases h
    · split at h
      · simp at h
      · split at h
        · simp at h
        · split at h
          · simp at h
          · simp at h
  · intro v hv hach
    rw [hv]
    simp only [hach]
    refine ⟨rfl, sessionStatus_append_insert_set _ _ _, ?_⟩
    exact ⟨_, List.drop_left _ _, rfl, rfl, rfl, rfl, rfl⟩

/-- Claim C7 (confirmed): an absent step-verification result is
treated as unknown — the rerun writes no `error` status and the
persisted row has outcome `Pass` with empty verification columns; a
definite `achieved: true` also never writes `error`; only a definite
`achieved: false` overrides the outcome to `Fail`, attaches
`Step verification: <reason>` as the failure detail, stores the
verifier's verdict, sets the session status to `error`, and stops. -/
theorem c7_verification_absence (e : StepEnv) (s : AppState) (d : Decision)
    (hrun : s.is_running = true) (hle : s.step_number ≤ s.max_steps)
    (hcap : e.capture_before_ok = true)
    (hd : analyzeResult e s.history = .ok d)
    (hexec : e.exec_fault = none) :
    (e.verify = .absent →
      DbOp.setStatus "error" ∉ (runStep e s).db.drop s.db.length ∧
      ∀ r, DbOp.insertRec r ∈ (runStep e s).db.drop s.db.length →
        r.outcome = "Pass" ∧ r.ver_achieved = none ∧ r.ver_reason = none) ∧
    (∀ v, e.verify = .result v → v.achieved = true →
      DbOp.setStatus "error" ∉ (runStep e s).db.drop s.db.length) ∧
    (∀ v, e.verify = .result v → v.achieved = false →
      (runStep e s).is_running = false ∧
      sessionStatus (runStep e s).db = "error" ∧
      ∃ rec, (runStep e s).db.drop s.db.length =
          [DbOp.insertRec rec, DbOp.setStatus "error"] ∧
        rec.outcome = "Fail" ∧
        rec.feedback = some ("Step verification: " ++ v.reason) ∧
        rec.step_number = s.step_number ∧
        rec.ver_achieved = some "False" ∧ rec.ver_reason = some v.reason) := by
  unfold runStep
  rw [if_pos (by simp [hrun, hle])]
  unfold stepBody
  simp only [hcap, Bool.not_true, Bool.false_eq_true, if_false]
  rw [hd]
  dsimp only
  obtain ⟨hf1, hf2, hf3, hf4, hf5, hf6⟩ := reviseBudget_frame s
    (some (shotPath s.session_id s.step_number "before")) d
  have hx := stepExec_verify e
    (reviseBudget { s with current_shot_before := some (shotPath s.session_id s.step_number "before") } d)
    d (translatedCode e d) (shotPath s.session_id s.step_number "before")
    s.max_steps hexec
  rw [hf6, hf2] at hx
  exact hx

/-- Claim C7, witness: a step whose verifier definitely reports
`achieved: false, reason: "Calculator is not open"` moves the session
to `error` and stops it. -/
theorem c7_witness :
    sessionStatus (runStep
      { demoEnv with verify := .result { achieved := false, reason := "Calculator is not open" } }
      (initState "sid" "goal" 10)).db = "error" ∧
    (runStep
      { demoEnv with verify := .result { achieved := false, reason := "Calculator is not open" } }
      (initState "sid" "goal" 10)).is_running = false := by
  have h := c7_verification_absence
    { demoEnv with verify := .result { achieved := false, reason := "Calculator is not open" } }
    (initState "sid" "goal" 10) (stubDecision 1) rfl (by decide) rfl rfl rfl
  have h3 := h.2.2 { achieved := false, reason := "Calculator is not open" } rfl rfl
  exact ⟨h3.2.1, h3.1⟩

/-! ## Claim C10 -/

theorem normalFinish_executed (s : AppState) (d : Decision) (code bp ap : String)
    (va vr : Option String) (ml : Nat) :
    (normalFinish s d code bp ap va vr ml).executed = s.executed := by
  unfold normalFinish
  dsimp only
  split
  · rfl
  split
  · rfl
  split
  · rfl
  · rfl

/-- What the execution kernel runs and what it records, when the
verifier's parse does not raise: `exec` receives the transformed
`code_to_run` while every `audit_log` row persisted for the step keeps
the untransformed `code`. -/
theorem stepExec_audit_code (e : StepEnv) (s1 : AppState) (d : Decision)
    (code bp : String) (ml : Nat)
    (hver : ∀ m, e.verify ≠ .raised m) :
    (stepExec e s1 d code bp ml).executed = s1.executed ++ [codeToRun code] ∧
    ∀ r, DbOp.insertRec r ∈ (stepExec e s1 d code bp ml).db.drop s1.db.length →
      r.code = some code := by
  unfold stepExec
  cases hex : e.exec_fault with
  | some m =>
    dsimp only
    refine ⟨rfl, ?_⟩
    intro r hmem
    rw [List.drop_left] at hmem
    rcases List.mem_cons.mp hmem with h | h
    · cases h
      rfl
    · simp at h
  | none =>
    dsimp only
    cases hv : e.verify with
    | raised m => exact absurd hv (hver m)
    | absent =>
      dsimp only
      constructor
      · rw [normalFinish_executed]
      · intro r hmem
        have hdb : s1.db =
            ({ s1 with executed := s1.executed ++ [codeToRun code] } : AppState).db := rfl
        rw [hdb, normalFinish_drop] at hmem
        rcases List.mem_cons.mp hmem with h | h
        · cases h
          rfl
        · split at h
          · simp at h
          · split at h
            · simp at h
            · split at h
              · simp at h
              · simp at h
    | result rr =>
      dsimp only
      cases hach : rr.achieved with
      | false =>
        rw [if_pos (show (!false) = true from rfl)]
        refine ⟨rfl, ?_⟩
        intro r hmem
        rw [List.drop_left] at hmem
        rcases List.mem_cons.mp hmem with h | h
        · cases h
          rfl
        · simp at h
      | true =>
        rw [if_neg (show ¬ (!true) = true from by decide)]
        constructor
        · rw [normalFinish_executed]
        · intro r hmem
          have hdb : s1.db =
              ({ s1 with executed := s1.executed ++ [codeToRun code] } : AppState).db := rfl
          rw [hdb, normalFinish_drop] at hmem
          rcases List.mem_cons.mp hmem with h | h
          · cases h
            rfl
          · split at h
            · simp at h
            · split at h
              · simp at h
              · split at h
                · simp at h
                · simp at h

/-- Claim C10 (amended): on a step that gets past capture and obtains a
decision (and whose verifier parse does not raise), the code handed to
`exec` is the transformed `code_to_run` — every occurrence of
`pyautogui.sleep(` rewritten to `time.sleep(`, then a
`time.sleep(0.6); ` delay spliced in at every occurrence of
`"; pyautogui."`, i.e. before each `pyautogui.` call that immediately
follows a semicolon-and-space, which includes the first call whenever
the instruction begins with an `import pyautogui; ` prefix — while
every `audit_log` row persisted for the step records the
untransformed instruction, so the audit trail does not record exactly
what ran. -/
theorem c10_audit_records_pretransform (e : StepEnv) (s : AppState) (d : Decision)
    (hrun : s.is_running = true) (hle : s.step_number ≤ s.max_steps)
    (hcap : e.capture_before_ok = true)
    (hd : analyzeResult e s.history = .ok d)
    (hver : ∀ m, e.verify ≠ .raised m) :
    (runStep e s).executed =
      s.executed ++ [addDelays (fixSleep (translatedCode e d))] ∧
    ∀ r, DbOp.insertRec r ∈ (runStep e s).db.drop s.db.length →
      r.code = some (translatedCode e d) := by
  unfold runStep
  rw [if_pos (by simp [hrun, hle])]
  unfold stepBody
  simp only [hcap, Bool.not_true, Bool.false_eq_true, if_false]
  rw [hd]
  dsimp only
  obtain ⟨hf1, hf2, hf3, hf4, hf5, hf6⟩ := reviseBudget_frame s
    (some (shotPath s.session_id s.step_number "before")) d
  have hx := stepExec_audit_code e
    (reviseBudget { s with current_shot_before := some (shotPath s.session_id s.step_number "before") } d)
    d (translatedCode e d) (shotPath s.session_id s.step_number "before")
    s.max_steps hver
  rw [hf6, hf5] at hx
  exact hx

/-- Claim C10, counterexample for the claim as stated: for the stub's
own calculator instruction the transformation inserts the 0.6-second
delay before the FIRST `pyautogui.` call as well (it follows the
`import pyautogui; ` prefix), so the executed code is not the variant
the claim describes (delays only after the first call). -/
theorem c10_counterexample :
    codeToRun "import pyautogui; pyautogui.hotkey('win', 'r'); pyautogui.write('calc'); pyautogui.press('enter')" =
      "import pyautogui; time.sleep(0.6); pyautogui.hotkey('win', 'r'); time.sleep(0.6); pyautogui.write('calc'); time.sleep(0.6); pyautogui.press('enter')" ∧
    codeToRun "import pyautogui; pyautogui.hotkey('win', 'r'); pyautogui.write('calc'); pyautogui.press('enter')" ≠
      "import pyautogui; pyautogui.hotkey('win', 'r'); time.sleep(0.6); pyautogui.write('calc'); time.sleep(0.6); pyautogui.press('enter')" := by
  exact ⟨rfl, by decide⟩

/-- Claim C10, witness for the amended theorem: the demo stub's step-1
instruction is persisted verbatim while the delayed variant is what
ran. -/
theorem c10_witness :
    (runStep demoEnv (initState "sid" "goal" 10)).executed =
      ["import pyautogui; time.sleep(0.6); pyautogui.hotkey('win', 'r'); time.sleep(0.6); pyautogui.write('calc'); time.sleep(0.6); pyautogui.press('enter')"] ∧
    ∀ r, DbOp.insertRec r ∈ (runStep demoEnv (initState "sid" "goal" 10)).db.drop 0 →
      r.code = some "import pyautogui; pyautogui.hotkey('win', 'r'); pyautogui.write('calc'); pyautogui.press('enter')" := by
  have h := c10_audit_records_pretransform demoEnv (initState "sid" "goal" 10)
    (stubDecision 1) rfl (by decide) rfl rfl
    (by intro m hm; simp [demoEnv] at hm)
  exact ⟨h.1.trans rfl, fun r hr => (h.2 r hr).trans rfl⟩

/-! ## Claim C8 -/

/-- Claim C8 (confirmed): the completion / post-mortem block — which is
the only caller of the end-of-run goal verification — never modifies
the session's status: for every state and whatever
`validate_goal_achieved` returns (achieved true, achieved false, or
none), the session status after the phase equals the status the step
pipeline left behind.  The phase appends at most a `post_mortems`
insert; it contains no status update. -/
theorem c8_goal_validation_frame (s : AppState) (v : Option VerifResult) :
    sessionStatus (completionPhase s v).db = sessionStatus s.db := by
  unfold completionPhase
  dsimp only
  split
  · split
    · rfl
    · exact sessionStatus_append_pm _ _ _ _ _ _
  · rfl

/-! ## Claim C3 -/

theorem recordSteps_append_set (db : List DbOp) (x : String) :
    recordSteps (db ++ [DbOp.setStatus x]) = recordSteps db := by
  simp [recordSteps, List.filterMap_append]

theorem recordSteps_append_insert (db : List DbOp) (r : AuditRec) :
    recordSteps (db ++ [DbOp.insertRec r]) = recordSteps db ++ [r.step_number] := by
  simp [recordSteps, List.filterMap_append]

theorem recordSteps_append_insert_set (db : List DbOp) (r : AuditRec) (x : String) :
    recordSteps (db ++ [DbOp.insertRec r, DbOp.setStatus x]) =
      recordSteps db ++ [r.step_number] := by
  simp [recordSteps, List.filterMap_append]

theorem recordSteps_catchAll (s : AppState) (m : String) :
    recordSteps (catchAll s m).db = recordSteps s.db ++ [0] := by
  unfold catchAll
  dsimp only
  simp [recordSteps, List.filterMap_append]

theorem catchAll_frame (s : AppState) (m : String) :
    (catchAll s m).step_number = s.step_number ∧
    (catchAll s m).max_steps = s.max_steps ∧
    (catchAll s m).is_running = false := ⟨rfl, rfl, rfl⟩

theorem recordSteps_normalFinish (s : AppState) (d : Decision) (code bp ap : String)
    (va vr : Option String) (ml : Nat) :
    recordSteps (normalFinish s d code bp ap va vr ml).db =
      recordSteps s.db ++ [s.step_number] := by
  unfold normalFinish
  dsimp only
  split
  · simp [recordSteps, List.filterMap_append]
  split
  · simp [recordSteps, List.filterMap_append]
  split
  · simp [recordSteps, List.filterMap_append]
  · simp [recordSteps, List.filterMap_append]

/-- The transition outcome of the normal path: either terminal
(running flag cleared) or still running with the step advanced by 1
and within the local budget. -/
theorem normalFinish_inv (s : AppState) (d : Decision) (code bp ap : String)
    (va vr : Option String) (ml : Nat) :
    ((normalFinish s d code bp ap va vr ml).is_running = false ∨
      ((normalFinish s d code bp ap va vr ml).is_running = s.is_running ∧
        (normalFinish s d code bp ap va vr ml).step_number = s.step_number + 1)) ∧
    ((normalFinish s d code bp ap va vr ml).step_number = ml + 1 ∨
      (normalFinish s d code bp ap va vr ml).step_number = s.step_number + 1) := by
  unfold normalFinish
  dsimp only
  split
  · exact ⟨Or.inl rfl, Or.inl rfl⟩
  split
  · exact ⟨Or.inl rfl, Or.inl rfl⟩
  split
  · exact ⟨Or.inl rfl, Or.inr rfl⟩
  · exact ⟨Or.inr ⟨rfl, rfl⟩, Or.inr rfl⟩

/-- The audit-history invariant the loop maintains: the persisted step
numbers are the contiguous sequence `1..k` for some `k` within the
(current, possibly revised) budget, optionally followed — only once the
loop has stopped — by the step-0 row of the generic fatal handler; and
while the loop is running, `k` is exactly the number of completed
steps. -/
def LoopInv (s : AppState) : Prop :=
  1 ≤ s.step_number ∧
  ∃ k, k ≤ s.max_steps ∧
    (recordSteps s.db = List.range' 1 k ∨
      (s.is_running = false ∧ recordSteps s.db = List.range' 1 k ++ [0])) ∧
    (s.is_running = true → k = s.step_number - 1)

theorem reviseBudget_max_bound (s : AppState) (p : Option String) (d : Decision)
    (h : s.step_number ≤ s.max_steps) :
    s.step_number ≤ (reviseBudget { s with current_shot_before := p } d).max_steps := by
  rw [reviseBudget_max_steps]
  split
  case isTrue h1 =>
    have h1' : s.step_number = 1 := h1
    cases d.total_steps with
    | none => exact h
    | some n =>
      dsimp only
      split
      case isTrue hn =>
        rw [h1']
        omega
      case isFalse hn => exact h
  case isFalse h1 => exact h

theorem range'_concat_one (n : Nat) (hpos : 1 ≤ n) :
    List.range' 1 (n - 1) ++ [n] = List.range' 1 n := by
  have h2 : List.range' 1 (n - 1 + 1) =
      List.range' 1 (n - 1) ++ [1 + 1 * (n - 1)] := List.range'_concat _ _
  rw [show (1 : Nat) + 1 * (n - 1) = n from by omega] at h2
  rw [show n - 1 + 1 = n from by omega] at h2
  exact h2.symm

theorem catchAll_inv (s : AppState) (m : String) (hpos : 1 ≤ s.step_number)
    (hk : s.step_number - 1 ≤ s.max_steps)
    (hrec : recordSteps s.db = List.range' 1 (s.step_number - 1)) :
    LoopInv (catchAll s m) := by
  refine ⟨hpos, s.step_number - 1, hk, Or.inr ⟨rfl, ?_⟩, ?_⟩
  · rw [recordSteps_catchAll, hrec]
  · intro h'
    simp [catchAll] at h'

theorem normalFinish_inv_full (s : AppState) (d : Decision) (code bp ap : String)
    (va vr : Option String) (ml : Nat)
    (_hrun : s.is_running = true) (hpos : 1 ≤ s.step_number)
    (hrec : recordSteps s.db = List.range' 1 (s.step_number - 1))
    (hb : s.step_number ≤ s.max_steps) :
    LoopInv (normalFinish s d code bp ap va vr ml) := by
  have hni := normalFinish_inv s d code bp ap va vr ml
  have hnr := recordSteps_normalFinish s d code bp ap va vr ml
  have hnm := normalFinish_max_steps s d code bp ap va vr ml
  refine ⟨?_, s.step_number, ?_, ?_, ?_⟩
  · rcases hni.2 with h' | h' <;> omega
  · rw [hnm]
    exact hb
  · left
    rw [hnr, hrec]
    exact range'_concat_one _ hpos
  · intro h'
    rcases hni.1 with h2 | h2
    · rw [h2] at h'
      cases h'
    · rw [h2.2]
      omega

theorem stepExec_inv (e : StepEnv) (s1 : AppState) (d : Decision)
    (code bp : String) (ml : Nat)
    (hrun : s1.is_running = true) (hpos : 1 ≤ s1.step_number)
    (hrec : recordSteps s1.db = List.range' 1 (s1.step_number - 1))
    (hb : s1.step_number ≤ s1.max_steps) :
    LoopInv (stepExec e s1 d code bp ml) := by
  unfold stepExec
  cases hex : e.exec_fault with
  | some m =>
    dsimp only
    refine ⟨hpos, s1.step_number, hb, ?_, ?_⟩
    · left
      rw [recordSteps_append_insert_set, hrec]
      exact range'_concat_one _ hpos
    · intro h'
      simp at h'
  | none =>
    dsimp only
    cases hv : e.verify with
    | raised m =>
      dsimp only
      exact catchAll_inv _ m hpos (le_trans (Nat.sub_le _ _) hb) hrec
    | absent =>
      dsimp only
      exact normalFinish_inv_full _ d code bp _ none none ml hrun hpos hrec hb
    | result rr =>
      dsimp only
      cases hach : rr.achieved with
      | false =>
        rw [if_pos (show (!false) = true from rfl)]
        refine ⟨hpos, s1.step_number, hb, ?_, ?_⟩
        · left
          rw [recordSteps_append_insert_set, hrec]
          exact range'_concat_one _ hpos
        · intro h'
          simp at h'
      | true =>
        rw [if_neg (show ¬ (!true) = true from by decide)]
        exact normalFinish_inv_full _ d code bp _ _ _ ml hrun hpos hrec hb

theorem LoopInv_runStep (e : StepEnv) (s : AppState) (h : LoopInv s) :
    LoopInv (runStep e s) := by
  unfold runStep
  split
  case isFalse => exact h
  case isTrue hg =>
    have hg' := Bool.and_eq_true_iff.mp hg
    have hrun : s.is_running = true := hg'.1
    have hle : s.step_number ≤ s.max_steps := of_decide_eq_true hg'.2
    obtain ⟨hpos, k, hk, hrecd, hkrun⟩ := h
    have hkval : k = s.step_number - 1 := hkrun hrun
    have hrecs : recordSteps s.db = List.range' 1 (s.step_number - 1) := by
      rcases hrecd with h' | ⟨hfalse, _⟩
      · rw [← hkval]
        exact h'
      · rw [hrun] at hfalse
        cases hfalse
    unfold stepBody
    cases hcap : e.capture_before_ok with
    | false =>
      rw [if_pos (show (!false) = true from rfl)]
      refine ⟨hpos, s.step_number - 1, le_trans (Nat.sub_le _ _) hle, ?_, ?_⟩
      · left
        rw [recordSteps_append_set]
        exact hrecs
      · intro h'
        simp at h'
    | true =>
      rw [if_neg (show ¬ (!true) = true from by decide)]
      dsimp only
      cases ha : analyzeResult e s.history with
      | error m =>
        dsimp only
        exact catchAll_inv _ m hpos (le_trans (Nat.sub_le _ _) hle) hrecs
      | ok d =>
        dsimp only
        have hbound := reviseBudget_max_bound s
          (some (shotPath s.session_id s.step_number "before")) d hle
        obtain ⟨hf1, hf2, hf3, hf4, hf5, hf6⟩ := reviseBudget_frame s
          (some (shotPath s.session_id s.step_number "before")) d
        apply stepExec_inv
        · rw [hf3]
          exact hrun
        · rw [hf2]
          exact hpos
        · rw [hf6, hf2]
          exact hrecs
        · rw [hf2]
          exact hbound

theorem LoopInv_runLoop (envs : List StepEnv) :
    ∀ s, LoopInv s → LoopInv (runLoop envs s) := by
  induction envs with
  | nil => exact fun s h => h
  | cons e es ih => exact fun s h => ih _ (LoopInv_runStep e s h)

/-- Claim C3 (amended): for every session and every behaviour of the
collaborators, the step numbers of the persisted StepRecords are the
contiguous sequence `1..k` for some `k` not exceeding the (possibly
revised) step budget, OPTIONALLY followed by a single record numbered 0:
the generic fatal handler persists its failure row with step number 0
— after setting the session status, not before — instead of the
in-progress step number, and the capture-fault path persists no record
at all. -/
theorem c3_step_numbers_amended (envs : List StepEnv) (sid goal : String) (B : Nat) :
    ∃ k, k ≤ (runLoop envs (initState sid goal B)).max_steps ∧
      (recordSteps (runLoop envs (initState sid goal B)).db = List.range' 1 k ∨
       recordSteps (runLoop envs (initState sid goal B)).db = List.range' 1 k ++ [0]) := by
  have h := LoopInv_runLoop envs (initState sid goal B)
    ⟨Nat.le_refl 1, 0, Nat.zero_le _, Or.inl rfl, fun _ => rfl⟩
  obtain ⟨_, k, hk, hrecd, _⟩ := h
  refine ⟨k, hk, ?_⟩
  rcases hrecd with h' | ⟨_, h'⟩
  · exact Or.inl h'
  · exact Or.inr h'

/-- Claim C3, counterexample: a run whose step-1 reasoning stage raises
(e.g. the `AttributeError` of claim C1).  The generic fatal handler
persists a single record with step number 0 — so the persisted step
numbers are not `1..k` for any `k` — and the session status is set
BEFORE the failure row is inserted, not after. -/
theorem c3_counterexample :
    recordSteps (runLoop [{ demoEnv with api := .raised "AttributeError: strip" }]
      (initState "sid" "goal" 10)).db = [0] ∧
    (∀ k, recordSteps (runLoop [{ demoEnv with api := .raised "AttributeError: strip" }]
      (initState "sid" "goal" 10)).db ≠ List.range' 1 k) ∧
    (runLoop [{ demoEnv with api := .raised "AttributeError: strip" }]
      (initState "sid" "goal" 10)).db =
      [DbOp.setStatus "error",
       DbOp.insertRec
         { step_number := 0
           thought := "Task failed before or during first step."
           code := none
           action := "Task initialization failed"
           feedback := some "AttributeError: strip"
           status := "error"
           outcome := "Fail"
           shot_before := some "data/screenshots/sid/step_1_before.png"
           shot_after := none
           ver_achieved := none
           ver_reason := none }] := by
  refine ⟨rfl, ?_, rfl⟩
  intro k hk
  rw [show recordSteps (runLoop [{ demoEnv with api := .raised "AttributeError: strip" }]
    (initState "sid" "goal" 10)).db = [0] from rfl] at hk
  cases k with
  | zero => simp [List.range'] at hk
  | succ k' => simp [List.range'] at hk

end UniversalTasker
